import Mathlib

/-!
Verification of the server-side relay subsystem of the `annonumous-chat`
repository against its natural-language specification.

The definitions below are a shallow embedding of the TypeScript sources:

* `src/security/rateLimit.ts` — `TokenBucket`, `IpConnectionLimiter`,
  `GlobalConnectionLimiter`;
* `src/utils/base64url.ts` — base64url codec and HMAC helpers;
* `src/security/joinTokens.ts` — `mintJoinToken` / `verifyJoinToken`;
* `src/rooms/roomStore.ts` — the Redis-backed `RoomStore` (the Lua
  scripts are embedded as Lean functions over a functional model of the
  Redis keyspace);
* `src/ws/types.ts` / `src/ws/handlers.ts` — the WebSocket protocol
  engine (message dispatch, broadcast fan-out, admission, keep-alive).

JavaScript numbers are modelled as `Nat` (all quantities involved are
non-negative integers well below 2^53, where JS arithmetic is exact).
Wall-clock time (`Date.now()`) is passed explicitly as a `now : Nat`
parameter.  Randomness (`randomIdB64Url`) is modelled by passing the
generated value as an explicit parameter.
-/

namespace AnnonChat

/-! ### Token bucket — src/security/rateLimit.ts, class TokenBucket -/

/-- Constructor options of `TokenBucket` (`capacity`, `refillTokens`,
`refillEveryMs`). -/
structure BucketCfg where
  capacity : Nat
  refillTokens : Nat
  refillEveryMs : Nat
deriving DecidableEq

/-- Mutable state of a `TokenBucket` (`this.state`). -/
structure Bucket where
  tokens : Nat
  lastRefillMs : Nat
deriving DecidableEq

/-- `TokenBucket.refill` (private).  `elapsed = now - lastRefillMs`; the
JS guard `elapsed <= 0` coincides with truncated `Nat` subtraction
returning `0`. -/
def Bucket.refill (cfg : BucketCfg) (b : Bucket) (now : Nat) : Bucket :=
  let elapsed := now - b.lastRefillMs
  if elapsed = 0 then b
  else
    let periods := elapsed / cfg.refillEveryMs
    if periods = 0 then b
    else
      { tokens := min cfg.capacity (b.tokens + periods * cfg.refillTokens)
        lastRefillMs := b.lastRefillMs + periods * cfg.refillEveryMs }

/-- `TokenBucket.take(tokens)`.  The JS guard `tokens <= 0` becomes
`n = 0` for `n : Nat` (the callers only pass non-negative counts). -/
def Bucket.take (cfg : BucketCfg) (b : Bucket) (now : Nat) (n : Nat) :
    Bool × Bucket :=
  let b := b.refill cfg now
  if n = 0 then (true, b)
  else if b.tokens < n then (false, b)
  else (true, { b with tokens := b.tokens - n })

/-! ### IP / global connection meters — src/security/rateLimit.ts -/

/-- State of `IpConnectionLimiter`: the `counts` map, modelled as a
function (`delete` on reaching zero stores `0`, observationally equal to
the JS map whose `get(ip) ?? 0` then yields `0`). -/
def IpCounts := String → Nat

/-- `counts.get(ip) ?? 0`. -/
def IpCounts.get (m : IpCounts) (ip : String) : Nat := m ip

/-- `IpConnectionLimiter.tryInc(ip)`. -/
def IpCounts.tryInc (maxPerIp : Nat) (m : IpCounts) (ip : String) :
    Bool × IpCounts :=
  let cur := m.get ip
  if maxPerIp ≤ cur then (false, m)
  else (true, fun i => if i = ip then cur + 1 else m i)

/-- `IpConnectionLimiter.dec(ip)` — `cur <= 1` deletes the key
(modelled as storing `0`), else stores `cur - 1`; both cases are
`cur - 1` in `Nat`. -/
def IpCounts.dec (m : IpCounts) (ip : String) : IpCounts :=
  fun i => if i = ip then m.get ip - 1 else m i

/-- `GlobalConnectionLimiter.tryInc()`. -/
def globalTryInc (maxTotal : Nat) (c : Nat) : Bool × Nat :=
  if maxTotal ≤ c then (false, c) else (true, c + 1)

/-- `GlobalConnectionLimiter.dec()` — guarded by `count > 0`, which is
truncated subtraction on `Nat`. -/
def globalDec (c : Nat) : Nat := c - 1

/-! ### Admission front-door — src/ws/handlers.ts lines 227-238

On a new socket: `globalLimiter.tryInc()` first; on failure reject
(`global_limit`) without touching either meter.  Then
`ipLimiter.tryInc(ip)`; on failure undo the global increment and reject
(`ip_limit`).  Otherwise the connection is admitted with both meters
incremented. -/

/-- Combined meter state (global counter and per-IP map). -/
structure Meters where
  global : Nat
  perIp : IpCounts

inductive AdmitResult
| acceptedConn
| rejectedGlobal
| rejectedIp
deriving DecidableEq

/-- The admission sequence of `fastify.get("/ws", ...)`. -/
def admitConn (maxTotal maxPerIp : Nat) (m : Meters) (ip : String) :
    AdmitResult × Meters :=
  let g := globalTryInc maxTotal m.global
  if g.1 = false then (.rejectedGlobal, m)
  else
    let i := IpCounts.tryInc maxPerIp m.perIp ip
    if i.1 = false then (.rejectedIp, { m with global := globalDec g.2 })
    else (.acceptedConn, { global := g.2, perIp := i.2 })

/-! ### Room store — src/rooms/roomStore.ts

The Redis keyspace for a room `rid` consists of `room:rid:meta`,
`room:rid:members`, `room:rid:count`, `room:rid:jtis` and the single-use
markers `room:rid:jti:<jti>`.  The model collects `meta`/`members`/
`count` into one optional record per room id (`meta` exists iff the
record is present — the store always creates and deletes them
together), keeps the `jtis` set per room, and keeps each `jti` marker
as its absolute expiry time (`SET ... PX ttl` at time `now` expires at
`now + ttl`; an expired key is absent for `NX`).  Key TTL refreshes
(`PEXPIRE`) of the room keys only prolong lifetime and are not otherwise
observable in the claims under study; they are not modelled. -/

/-- The `room:rid:members` set and `room:rid:count` value.  `count` is
stored independently of the set, exactly as in Redis. -/
structure RoomData where
  members : List String
  count : Nat
deriving DecidableEq

/-- Functional model of the Redis keyspace owned by `RoomStore`. -/
structure Store where
  rooms : String → Option RoomData
  jtis : String → List String
  jtiExpiry : String → String → Option Nat

/-- `SADD`: add to a set, no duplicates. -/
def saddList (l : List String) (x : String) : List String :=
  if x ∈ l then l else l ++ [x]

/-- `RoomStore.createRoom(roomId, creatorConnId)`: one `MULTI` doing
`HSET meta`, `SADD members creator`, `SET count "1"`, `DEL jtis` (plus
TTL refreshes).  Note `SADD` adds to the members set as it stands. -/
def Store.createRoom (s : Store) (rid conn : String) : Store :=
  let old := (s.rooms rid).map RoomData.members |>.getD []
  { s with
    rooms := fun r => if r = rid then some ⟨saddList old conn, 1⟩ else s.rooms r
    jtis := fun r => if r = rid then [] else s.jtis r }

/-- `RoomStore.createRoomEmpty(roomId)`: `HSET meta`, `SET count "0"`
(the members key is not touched). -/
def Store.createRoomEmpty (s : Store) (rid : String) : Store :=
  let old := (s.rooms rid).map RoomData.members |>.getD []
  { s with
    rooms := fun r => if r = rid then some ⟨old, 0⟩ else s.rooms r }

/-- Result of the `tryJoin` Lua script. -/
inductive JoinRes
| noRoom
| full
| okJoined (count : Nat) (label : String)
deriving DecidableEq

/-- The error `code` string the handler reads off a failed `tryJoin`
(`out[1]` of the Lua reply). -/
def JoinRes.code : JoinRes → String
| .noRoom => "ERR_NO_ROOM"
| .full => "ERR_ROOM_FULL"
| .okJoined _ _ => ""

def JoinRes.isOk : JoinRes → Bool
| .okJoined _ _ => true
| _ => false

/-- The `tryJoin` Lua script (atomic).  `EXISTS meta`; `SISMEMBER`
short-circuits with the current count and label `"P" .. cur`; capacity
check `cur >= max`; otherwise `SADD` + `SET count (cur+1)`. -/
def Store.tryJoin (s : Store) (rid conn : String) (maxParticipants : Nat) :
    JoinRes × Store :=
  match s.rooms rid with
  | none => (.noRoom, s)
  | some rd =>
    if conn ∈ rd.members then
      (.okJoined rd.count ("P" ++ toString rd.count), s)
    else if maxParticipants ≤ rd.count then
      (.full, s)
    else
      let c := rd.count + 1
      (.okJoined c ("P" ++ toString c),
        { s with rooms := fun r =>
            if r = rid then some ⟨rd.members ++ [conn], c⟩ else s.rooms r })

/-- The `leave` Lua script (atomic): `SREM`, decrement `count` when the
member was removed and `count > 0`, and full cleanup (`DEL` of all room
keys and of every tracked `jti` marker) when the count reaches zero. -/
def Store.leave (s : Store) (rid conn : String) : Nat × Store :=
  match s.rooms rid with
  | none => (0, s)
  | some rd =>
    let removed := conn ∈ rd.members
    let cur := if removed ∧ 0 < rd.count then rd.count - 1 else rd.count
    if cur = 0 then
      (0,
        { rooms := fun r => if r = rid then none else s.rooms r
          jtis := fun r => if r = rid then [] else s.jtis r
          jtiExpiry := fun r j =>
            if r = rid ∧ j ∈ s.jtis rid then none else s.jtiExpiry r j })
    else
      (cur,
        { s with rooms := fun r =>
            if r = rid then some ⟨rd.members.erase conn, cur⟩ else s.rooms r })

/-- `RoomStore.markTokenJtiUsed(roomId, jti, ttlMs)`:
`SET room:rid:jti:<jti> 1 PX ttlMs NX` — fails iff the marker exists and
is unexpired; on success the jti is also added to the room's `jtis`
set. -/
def Store.markTokenJtiUsed (s : Store) (rid jti : String) (ttlMs now : Nat) :
    Bool × Store :=
  let live : Bool := match s.jtiExpiry rid jti with
    | some e => decide (now < e)
    | none => false
  if live then (false, s)
  else
    (true,
      { s with
        jtis := fun r => if r = rid then saddList (s.jtis r) jti else s.jtis r
        jtiExpiry := fun r j =>
          if r = rid ∧ j = jti then some (now + ttlMs) else s.jtiExpiry r j })

/-- `RoomStore.roomExists(roomId)` (`EXISTS meta`). -/
def Store.roomExists (s : Store) (rid : String) : Bool :=
  (s.rooms rid).isSome

/-! ### base64url — src/utils/base64url.ts

`b64urlEncode` is Node's `base64` encoding with `+/` translated to `-_`
and padding stripped; the model emits the base64url alphabet directly.
`b64urlDecode` maps `-_` back to `+/`, re-pads and calls
`Buffer.from(padded, "base64")`; Node's decoder is forgiving: characters
outside the alphabet are skipped and `=` terminates decoding, and a
trailing group of 2 (resp. 3) characters yields 1 (resp. 2) bytes with
the unused low-order bits of the final character discarded.  Bytes are
`Nat` values `< 256`. -/

/-- Value of one base64 character under Node's decoder, after the
`-`→`+`, `_`→`/` replacements done by `b64urlDecode` (so both the url
and the standard alphabet are accepted). -/
def b64Val (c : Char) : Option Nat :=
  let n := c.toNat
  if 65 ≤ n ∧ n ≤ 90 then some (n - 65)
  else if 97 ≤ n ∧ n ≤ 122 then some (n - 97 + 26)
  else if 48 ≤ n ∧ n ≤ 57 then some (n - 48 + 52)
  else if n = 45 ∨ n = 43 then some 62
  else if n = 95 ∨ n = 47 then some 63
  else none

/-- Character of the base64url alphabet at index `n < 64`. -/
def b64Char (n : Nat) : Char :=
  if n < 26 then Char.ofNat (65 + n)
  else if n < 52 then Char.ofNat (97 + (n - 26))
  else if n < 62 then Char.ofNat (48 + (n - 52))
  else if n = 62 then '-'
  else '_'

/-- `b64urlEncode`: 3 bytes → 4 characters, with the 1- and 2-byte tail
cases of unpadded base64. -/
def b64EncodeBytes : List Nat → List Char
| [] => []
| [a] => [b64Char (a / 4), b64Char (a % 4 * 16)]
| [a, b] => [b64Char (a / 4), b64Char (a % 4 * 16 + b / 16), b64Char (b % 16 * 4)]
| a :: b :: d :: rest =>
    b64Char (a / 4) :: b64Char (a % 4 * 16 + b / 16) ::
    b64Char (b % 16 * 4 + d / 64) :: b64Char (d % 64) :: b64EncodeBytes rest

/-- The forgiving scan of Node's base64 decoder: skip characters outside
the alphabet, stop at `=`. -/
def b64TakeValid : List Char → List Nat
| [] => []
| c :: rest =>
  if c = '=' then []
  else
    match b64Val c with
    | some v => v :: b64TakeValid rest
    | none => b64TakeValid rest

/-- Reassemble bytes from 6-bit values: 4 values → 3 bytes, a trailing
pair → 1 byte, a trailing triple → 2 bytes, a lone value → nothing. -/
def b64DecodeVals : List Nat → List Nat
| v0 :: v1 :: v2 :: v3 :: rest =>
    (v0 * 4 + v1 / 16) :: (v1 % 16 * 16 + v2 / 4) :: (v2 % 4 * 64 + v3) ::
    b64DecodeVals rest
| [v0, v1] => [v0 * 4 + v1 / 16]
| [v0, v1, v2] => [v0 * 4 + v1 / 16, v1 % 16 * 16 + v2 / 4]
| _ => []

/-- `b64urlDecode` on the character list of the input string. -/
def b64DecodeChars (cs : List Char) : List Nat :=
  b64DecodeVals (b64TakeValid cs)

/-! ### Join token codec — src/security/joinTokens.ts

`hmacSha256B64Url` wraps `createHmac("sha256", secret)` from
`node:crypto`, an external primitive; it is modelled as an explicit
parameter `mac : String → List Nat → List Nat` (secret and payload bytes
to digest bytes).  `randomIdB64Url(16)` (the minted `jti`) is a
22-character base64url string passed as an explicit parameter.
`JSON.stringify` of the payload literal `{v:1, rid, exp, jti}` produces
the canonical text with the fields in insertion order; `rid` and `jti`
are base64url identifiers, so no string escaping arises. -/

def digitCh (n : Nat) : Char := Char.ofNat (48 + n)

/-- Decimal digits of a number (fuel-structured so that the kernel can
evaluate it; the fuel `n + 1` always suffices). -/
def natDigitsAux : Nat → Nat → List Char → List Char
| 0, _, acc => acc
| fuel + 1, n, acc =>
  if n < 10 then digitCh n :: acc
  else natDigitsAux fuel (n / 10) (digitCh (n % 10) :: acc)

/-- Decimal representation of a number, as printed by `JSON.stringify`
for the integral `exp` field. -/
def natDigits (n : Nat) : List Char := natDigitsAux (n + 1) n []

/-- The serialized payload `JSON.stringify({v:1, rid, exp, jti})`. -/
def payloadChars (rid : String) (exp : Nat) (jti : String) : List Char :=
  "\x7b\x22v\x22:1,\x22rid\x22:\x22".data ++ rid.data ++
  "\x22,\x22exp\x22:".data ++ natDigits exp ++
  ",\x22jti\x22:\x22".data ++ jti.data ++ "\x22\x7d".data

/-- A keyed-MAC function: the model of `hmacSha256B64Url` before base64
encoding. -/
def MacFn := String → List Nat → List Nat

/-- `mintJoinToken(secret, rid, expUnixMs)`; the freshly generated
`jti` is the explicit last parameter. -/
def mintJoinToken (mac : MacFn) (secret rid : String) (exp : Nat)
    (jti : String) : String :=
  let payloadBytes := (payloadChars rid exp jti).map Char.toNat
  ⟨b64EncodeBytes payloadBytes ++
    '.' :: b64EncodeBytes (mac secret payloadBytes)⟩

/-- Model of JS `token.split(".")`. -/
def splitOnDot : List Char → List (List Char)
| [] => [[]]
| c :: rest =>
  if c = '.' then [] :: splitOnDot rest
  else
    match splitOnDot rest with
    | [] => [[c]]
    | p :: ps => (c :: p) :: ps

/-- Consume an expected literal. -/
def stripLit : List Char → List Char → Option (List Char)
| [], cs => some cs
| _ :: _, [] => none
| l :: ls, c :: cs => if c = l then stripLit ls cs else none

/-- Consume characters up to a closing double quote. -/
def parseQuoted (cs : List Char) : Option (List Char × List Char) :=
  let s := cs.takeWhile (fun c => c != '\x22')
  match cs.dropWhile (fun c => c != '\x22') with
  | '\x22' :: rest => some (s, rest)
  | _ => none

def isDigitCh (c : Char) : Bool := decide (48 ≤ c.toNat ∧ c.toNat ≤ 57)

def digitsVal (ds : List Char) : Nat :=
  ds.foldl (fun a c => a * 10 + (c.toNat - 48)) 0

/-- Consume a non-empty run of decimal digits. -/
def parseNum (cs : List Char) : Option (Nat × List Char) :=
  match cs.takeWhile isDigitCh with
  | [] => none
  | ds => some (digitsVal ds, cs.dropWhile isDigitCh)

/-- `JSON.parse` of the decoded payload followed by the shape checks of
`verifyJoinToken` (`v === 1`, `rid`/`jti` strings, `exp` number),
modelled as a parser of the canonical serialization; any other input is
rejected. -/
def parsePayload (cs : List Char) : Option (String × Nat × String) := do
  let r1 ← stripLit "\x7b\x22v\x22:1,\x22rid\x22:\x22".data cs
  let (rid, r2) ← parseQuoted r1
  let r3 ← stripLit ",\x22exp\x22:".data r2
  let (exp, r4) ← parseNum r3
  let r5 ← stripLit ",\x22jti\x22:\x22".data r4
  let (jti, r6) ← parseQuoted r5
  match r6 with
  | ['\x7d'] => some (⟨rid⟩, exp, ⟨jti⟩)
  | _ => none

inductive VerifyRes
| okToken (rid : String) (exp : Nat) (jti : String)
| errToken (code : String)
deriving DecidableEq

/-- `verifyJoinToken(secret, token)`: split on `.`; reject unless
exactly two non-empty halves; decode the payload half (`Buffer.from`
never throws, so the `catch` branch is dead); recompute the MAC and
compare via `timingSafeEqualB64Url` (which decodes both base64 strings
and compares the byte sequences, length first); finally parse and
validate the payload. -/
def verifyJoinToken (mac : MacFn) (secret token : String) : VerifyRes :=
  match splitOnDot token.data with
  | [p, m] =>
    if p.isEmpty || m.isEmpty then .errToken "ERR_TOKEN_FORMAT"
    else
      let payloadBytes := b64DecodeChars p
      let expectedMac := mac secret payloadBytes
      if b64DecodeChars m = b64DecodeChars (b64EncodeBytes expectedMac) then
        match parsePayload (payloadBytes.map Char.ofNat) with
        | some (rid, exp, jti) => .okToken rid exp jti
        | none => .errToken "ERR_TOKEN_FORMAT"
      else .errToken "ERR_TOKEN_MAC"
  | _ => .errToken "ERR_TOKEN_FORMAT"

/-- Concrete stand-in digest for the external `hmacSha256` primitive:
a deterministic keyed function producing 32 bytes, used to instantiate
the `mac` parameter in witnesses.  (The theorems about the codec
quantify over `mac` wherever the property does not depend on the
digest.) -/
def macModel (secret : String) (data : List Nat) : List Nat :=
  let seed := (secret.data.map Char.toNat).foldl
    (fun a b => (a * 131 + b) % 65521) 7
  let h1 := data.foldl (fun a b => (a * 131 + b) % 65521) seed
  let h2 := data.foldl (fun a b => (a * 251 + b + 1) % 65519) (seed + 1)
  (List.range 32).map (fun i =>
    if i = 0 then h1 % 256 else if i = 1 then h1 / 256
    else if i = 2 then h2 % 256 else if i = 3 then h2 / 256
    else (h1 * 37 + h2 * 101 + 37 * i + data.getD i 0) % 256)

/-! ### Protocol engine — src/ws/types.ts and src/ws/handlers.ts

Client messages are modelled after the zod schemas of `src/ws/types.ts`
(the module version imported by `handlers.ts`, which includes the
optional `label` field of `JOIN_REQUEST` and `MediaMsgSchema`); the
random envelope `id` fields are not observable in any claim and are
omitted.  Server-side effects of one inbound frame are the updated
in-process state plus a list of `Output`s: frames enqueued on sockets
and socket closes.  `setImmediate` batching inside `broadcast` only
yields between batches and preserves the per-broadcast send order, so
the fan-out is modelled as a single pass over the membership snapshot.
`roomStore.touch` refreshes TTLs only and is not modelled. -/

/-- The configuration fields the WS handlers read. -/
structure Config where
  maxWsMsgBytes : Nat
  maxAppCiphertextBytes : Nat
  roomMaxParticipants : Nat
  roomKeyTtlMs : Nat
  qrRotationMs : Nat
  maxMsgsPer10s : Nat
  maxBytesPer10s : Nat
  joinTokenSecret : String

/-- Parsed client message (the `ClientMsg` union of types.ts). -/
inductive ClientMsg
| pingMsg
| roomCreate
| joinRequest (roomId : String) (token qrToken labelOpt : Option String)
| leaveMsg (roomId : String)
| appMsg (roomId ciphertextB64 : String)
| mediaMsg (roomId mime : String) (size chunkSize : Nat)
    (chunks : List String) (fromOpt : Option String)
deriving DecidableEq

/-- Server-originated frame bodies (envelope `v`/`id` omitted). -/
inductive Frame
| hello (serverTimeUnixMs : Nat)
| pong
| roomCreated (roomId qrToken : String) (qrExpUnixMs maxParticipants : Nat)
| joined (roomId : String) (participants maxParticipants : Nat)
    (label nextToken : String) (nextTokenExpUnixMs : Nat)
| leftRoom (roomId : String)
| qrRotated (roomId qrToken : String) (qrExpUnixMs : Nat)
| systemMsg (roomId text msgType : String)
| roomStats (roomId : String) (participants maxParticipants : Nat)
| appMsgF (roomId ciphertextB64 : String)
| mediaMsgF (roomId mime : String) (size chunkSize : Nat)
    (chunks : List String) (fromOpt : Option String)
| errorF (code : String) (retryable : Bool)
deriving DecidableEq

/-- Observable socket effects of a handler invocation. -/
inductive Output
| send (dest : String) (frame : Frame)
| closeSock (conn : String) (code : Nat) (reason : String)
deriving DecidableEq

/-- Per-connection context (`ConnCtx` of handlers.ts), together with
the observable state of its socket (`readyState === 1` and
`bufferedAmount`). -/
structure ConnCtx where
  connId : String
  ip : String
  roomId : Option String
  label : Option String
  msgBucket : Bucket
  bytesBucket : Bucket
  lastPongMs : Nat
  awaitingPong : Bool
  sockOpen : Bool
  buffered : Nat
deriving DecidableEq

/-- `LocalRoom` of handlers.ts (`qrTimer` is a timer handle; rotation
is driven externally and not part of any claim). -/
structure LocalRoom where
  conns : List String
  qrToken : String
  qrExpUnixMs : Nat
deriving DecidableEq

/-- In-process server state: the `connections` and `localRooms` maps
plus the external store. -/
structure SState where
  store : Store
  localRooms : String → Option LocalRoom
  conns : String → Option ConnCtx

def SState.setConn (st : SState) (c : ConnCtx) : SState :=
  { st with conns := fun i => if i = c.connId then some c else st.conns i }

def SState.setLocal (st : SState) (rid : String) (r : Option LocalRoom) :
    SState :=
  { st with localRooms := fun x => if x = rid then r else st.localRooms x }

def msgBucketCfg (cfg : Config) : BucketCfg :=
  ⟨cfg.maxMsgsPer10s, cfg.maxMsgsPer10s, 10000⟩

def bytesBucketCfg (cfg : Config) : BucketCfg :=
  ⟨cfg.maxBytesPer10s, cfg.maxBytesPer10s, 10000⟩

/-- `wsSend(ctx, msg)`: drop when the socket is not open or the send
buffer exceeds `MAX_WS_MSG_BYTES * 4` (slow-consumer drop). -/
def wsSendOuts (cfg : Config) (ctx : ConnCtx) (f : Frame) : List Output :=
  if ctx.sockOpen = false then []
  else if cfg.maxWsMsgBytes * 4 < ctx.buffered then []
  else [.send ctx.connId f]

/-- `broadcast(roomId, msg)`: snapshot the room's connection ids; for
each, skip unknown or non-open sockets, close slow consumers with 1008
"slow consumer", otherwise enqueue the frame. -/
def broadcastOuts (cfg : Config) (st : SState) (rid : String) (f : Frame) :
    List Output :=
  match st.localRooms rid with
  | none => []
  | some r =>
    r.conns.flatMap (fun id =>
      match st.conns id with
      | none => []
      | some ctx =>
        if ctx.sockOpen = false then []
        else if cfg.maxWsMsgBytes * 4 < ctx.buffered then
          [.closeSock id 1008 "slow consumer"]
        else [.send id f])

/-- Fresh random values consumed by one handler invocation
(`randomIdB64Url` results, in order of use). -/
structure Rand where
  freshRoomId : String
  freshJtiA : String
  freshJtiB : String

/-- `ensureLocalRoom(roomId)`: reuse the entry or create one with a
freshly minted rotation token expiring at `now + QR_ROTATION_MS`. -/
def ensureLocalRoom (cfg : Config) (mac : MacFn) (st : SState)
    (rid : String) (now : Nat) (freshJti : String) : LocalRoom × SState :=
  match st.localRooms rid with
  | some r => (r, st)
  | none =>
    let exp := now + cfg.qrRotationMs
    let tok := mintJoinToken mac cfg.joinTokenSecret rid exp freshJti
    let r : LocalRoom := ⟨[], tok, exp⟩
    (r, st.setLocal rid (some r))

/-- `cleanupIfEmpty(roomId)`: drop the local entry when its membership
is empty. -/
def cleanupIfEmpty (st : SState) (rid : String) : SState :=
  match st.localRooms rid with
  | some r => if r.conns ≠ [] then st else st.setLocal rid none
  | none => st

/-- `leaveRoom(ctx, roomId)`: clear `ctx.roomId`, remove the connection
from the local room, run the store's `leave` script, then either clean
up the empty room or broadcast the departure (`SYSTEM_MSG` only when
`ctx.label` is truthy) and the new `ROOM_STATS`. -/
def leaveRoomH (cfg : Config) (st : SState) (ctx : ConnCtx) (rid : String) :
    SState × List Output :=
  if ctx.roomId ≠ some rid then (st, [])
  else
    let st1 := st.setConn { ctx with roomId := none }
    let st2 := match st1.localRooms rid with
      | some r => st1.setLocal rid (some { r with conns := r.conns.erase ctx.connId })
      | none => st1
    let res := st2.store.leave rid ctx.connId
    let st3 := { st2 with store := res.2 }
    if res.1 = 0 then (cleanupIfEmpty st3 rid, [])
    else
      let outs1 := match ctx.label with
        | some lbl =>
          if lbl = "" then []
          else broadcastOuts cfg st3 rid
            (.systemMsg rid (lbl ++ " has left the chat") "info")
        | none => []
      (st3, outs1 ++ broadcastOuts cfg st3 rid
        (.roomStats rid res.1 cfg.roomMaxParticipants))

/-- The `ROOM_CREATE` case (handlers.ts lines 310-327). -/
def handleRoomCreate (cfg : Config) (mac : MacFn) (st : SState)
    (ctx : ConnCtx) (now : Nat) (rand : Rand) : SState × List Output :=
  if ctx.roomId.isSome then
    (st, wsSendOuts cfg ctx (.errorF "ERR_ALREADY_IN_ROOM" false))
  else
    let rid := rand.freshRoomId
    let st1 := { st with store := st.store.createRoom rid ctx.connId }
    let el := ensureLocalRoom cfg mac st1 rid now rand.freshJtiA
    let localR := { el.1 with conns := saddList el.1.conns ctx.connId }
    let st3 := el.2.setLocal rid (some localR)
    let ctx1 := { ctx with roomId := some rid }
    let st4 := st3.setConn ctx1
    (st4,
      wsSendOuts cfg ctx1
        (.roomCreated rid localR.qrToken localR.qrExpUnixMs cfg.roomMaxParticipants)
      ++ broadcastOuts cfg st4 rid (.roomStats rid 1 cfg.roomMaxParticipants))

/-- `qrToken || token` followed by the `if (!effectiveToken) return`
falsiness check (the empty string is falsy). -/
def effectiveTokenOf (token qrToken : Option String) : Option String :=
  let pick := match qrToken with
    | some q => if q = "" then token else some q
    | none => token
  match pick with
  | some t => if t = "" then none else some t
  | none => none

/-- The `JOIN_REQUEST` case (handlers.ts lines 329-388). -/
def handleJoinRequest (cfg : Config) (mac : MacFn) (st : SState)
    (ctx : ConnCtx) (roomId : String) (token qrToken labelOpt : Option String)
    (now : Nat) (rand : Rand) : SState × List Output :=
  if ctx.roomId.isSome then
    (st, wsSendOuts cfg ctx (.errorF "ERR_ALREADY_IN_ROOM" false))
  else
    match effectiveTokenOf token qrToken with
    | none => (st, [])
    | some tokStr =>
      match verifyJoinToken mac cfg.joinTokenSecret tokStr with
      | .errToken code => (st, wsSendOuts cfg ctx (.errorF code true))
      | .okToken trid texp tjti =>
        if trid ≠ roomId then
          (st, wsSendOuts cfg ctx (.errorF "ERR_TOKEN_ROOM_MISMATCH" false))
        else if texp < now then
          (st, wsSendOuts cfg ctx (.errorF "ERR_TOKEN_EXPIRED" true))
        else
          let jtiTtlMs := max 1 (texp - now + 5000)
          let mk := st.store.markTokenJtiUsed roomId tjti jtiTtlMs now
          let st1 := { st with store := mk.2 }
          if mk.1 = false then
            (st1, wsSendOuts cfg ctx (.errorF "ERR_TOKEN_REPLAY" true))
          else
            let tj := st1.store.tryJoin roomId ctx.connId cfg.roomMaxParticipants
            let st2 := { st1 with store := tj.2 }
            match tj.1 with
            | .noRoom => (st2, wsSendOuts cfg ctx (.errorF "ERR_NO_ROOM" false))
            | .full => (st2, wsSendOuts cfg ctx (.errorF "ERR_ROOM_FULL" true))
            | .okJoined cnt lbl =>
              let el := ensureLocalRoom cfg mac st2 roomId now rand.freshJtiA
              let localR := { el.1 with conns := saddList el.1.conns ctx.connId }
              let st4 := el.2.setLocal roomId (some localR)
              let myLabel := match labelOpt with
                | some l => if l = "" then lbl else l
                | none => lbl
              let ctx1 := { ctx with roomId := some roomId, label := some myLabel }
              let st5 := st4.setConn ctx1
              let nextToken := mintJoinToken mac cfg.joinTokenSecret roomId
                (now + cfg.roomKeyTtlMs) rand.freshJtiB
              (st5,
                wsSendOuts cfg ctx1
                  (.joined roomId cnt cfg.roomMaxParticipants myLabel nextToken
                    (now + cfg.roomKeyTtlMs))
                ++ broadcastOuts cfg st5 roomId
                  (.systemMsg roomId
                    ("this person has entered the chat with the name " ++ myLabel)
                    "info")
                ++ broadcastOuts cfg st5 roomId
                  (.roomStats roomId cnt cfg.roomMaxParticipants))

/-- The `LEAVE` case. -/
def handleLeave (cfg : Config) (st : SState) (ctx : ConnCtx)
    (roomId : String) : SState × List Output :=
  let lr := leaveRoomH cfg st ctx roomId
  (lr.1, lr.2 ++ wsSendOuts cfg ctx (.leftRoom roomId))

/-- The `APP_MSG` case (handlers.ts lines 397-412). -/
def handleAppMsg (cfg : Config) (st : SState) (ctx : ConnCtx)
    (roomId ciphertextB64 : String) : SState × List Output :=
  if ctx.roomId ≠ some roomId then
    (st, wsSendOuts cfg ctx (.errorF "ERR_NOT_IN_ROOM" false))
  else if cfg.maxAppCiphertextBytes < ciphertextB64.utf8ByteSize then
    (st, wsSendOuts cfg ctx (.errorF "ERR_CIPHERTEXT_TOO_LARGE" false))
  else
    (st, broadcastOuts cfg st roomId (.appMsgF roomId ciphertextB64))

/-- The `MEDIA_MSG` case. -/
def handleMediaMsg (cfg : Config) (st : SState) (ctx : ConnCtx)
    (roomId mime : String) (size chunkSize : Nat) (chunks : List String)
    (fromOpt : Option String) : SState × List Output :=
  if ctx.roomId ≠ some roomId then
    (st, wsSendOuts cfg ctx (.errorF "ERR_NOT_IN_ROOM" false))
  else if 14 * 1024 * 1024 < (chunks.map String.utf8ByteSize).sum then
    (st, wsSendOuts cfg ctx (.errorF "ERR_MEDIA_TOO_LARGE" false))
  else
    (st, broadcastOuts cfg st roomId
      (.mediaMsgF roomId mime size chunkSize chunks fromOpt))

/-- The `switch (msg.t)` dispatch of the message handler. -/
def handleDispatch (cfg : Config) (mac : MacFn) (st : SState) (ctx : ConnCtx)
    (msg : ClientMsg) (now : Nat) (rand : Rand) : SState × List Output :=
  match msg with
  | .pingMsg => (st, wsSendOuts cfg ctx .pong)
  | .roomCreate => handleRoomCreate cfg mac st ctx now rand
  | .joinRequest rid t q l => handleJoinRequest cfg mac st ctx rid t q l now rand
  | .leaveMsg rid => handleLeave cfg st ctx rid
  | .appMsg rid ct => handleAppMsg cfg st ctx rid ct
  | .mediaMsg rid mi sz csz ch fr => handleMediaMsg cfg st ctx rid mi sz csz ch fr

/-- The connection context after both rate buckets were charged for one
inbound frame. -/
def ctxCharged (cfg : Config) (ctx : ConnCtx) (now rawBytes : Nat) : ConnCtx :=
  { ctx with
    msgBucket := (ctx.msgBucket.take (msgBucketCfg cfg) now 1).2
    bytesBucket := (ctx.bytesBucket.take (bytesBucketCfg cfg) now rawBytes).2 }

/-- The whole `socket.on("message")` handler for one inbound frame:
size ceiling, rate buckets (short-circuit: the bytes bucket is only
charged when the message bucket grants), schema validation
(`parsed = none` means `parseClientMsg` failed), then dispatch. -/
def handleRaw (cfg : Config) (mac : MacFn) (st : SState) (connId : String)
    (rawBytes : Nat) (parsed : Option ClientMsg) (now : Nat) (rand : Rand) :
    SState × List Output :=
  match st.conns connId with
  | none => (st, [])
  | some ctx =>
    if cfg.maxWsMsgBytes < rawBytes then
      (st, [.closeSock connId 1008 "message too large"])
    else
      let t1 := ctx.msgBucket.take (msgBucketCfg cfg) now 1
      if t1.1 = false then
        (st.setConn { ctx with msgBucket := t1.2 },
          [.closeSock connId 1008 "rate limit exceeded"])
      else
        let ctx1 := ctxCharged cfg ctx now rawBytes
        let st1 := st.setConn ctx1
        if (ctx.bytesBucket.take (bytesBucketCfg cfg) now rawBytes).1 = false then
          (st1, [.closeSock connId 1008 "rate limit exceeded"])
        else
          match parsed with
          | none => (st1, [.closeSock connId 1003 "invalid message"])
          | some msg => handleDispatch cfg mac st1 ctx1 msg now rand

/-- When the size and rate gates grant, `handleRaw` is the dispatch on
the charged context. -/
theorem handleRaw_grants (cfg : Config) (mac : MacFn) (st : SState)
    (connId : String) (rawBytes : Nat) (msg : ClientMsg) (now : Nat)
    (rand : Rand) (ctx : ConnCtx)
    (hconn : st.conns connId = some ctx)
    (hsize : ¬ cfg.maxWsMsgBytes < rawBytes)
    (ht1 : (ctx.msgBucket.take (msgBucketCfg cfg) now 1).1 = true)
    (ht2 : (ctx.bytesBucket.take (bytesBucketCfg cfg) now rawBytes).1 = true) :
    handleRaw cfg mac st connId rawBytes (some msg) now rand =
      handleDispatch cfg mac (st.setConn (ctxCharged cfg ctx now rawBytes))
        (ctxCharged cfg ctx now rawBytes) msg now rand := by
  unfold handleRaw
  rw [hconn]
  simp only [hsize, if_false, ht1, ht2]
  simp

/-! ### Disconnect path — handlers.ts lines 195-205 and 440-451

`socket.on("close")` and `socket.on("error")` both funnel into
`onDisconnect` guarded by the `disconnected` once-flag. -/

inductive SockEvent
| evClose
| evError
deriving DecidableEq

/-- `onDisconnect(ctx)`: leave the current room (if any), delete the
connection, decrement both meters. -/
def onDisconnect (cfg : Config) (st : SState) (m : Meters) (ctx : ConnCtx) :
    (SState × Meters) × List Output :=
  let l := match ctx.roomId with
    | some rid => leaveRoomH cfg st ctx rid
    | none => (st, [])
  let st2 := { l.1 with conns := fun i => if i = ctx.connId then none else l.1.conns i }
  ((st2, { global := globalDec m.global, perIp := m.perIp.dec ctx.ip }), l.2)

/-- One `close`/`error` event on a socket, guarded by the
`disconnected` flag. -/
def sockEventStep (cfg : Config) (connId : String)
    (s : SState × Meters × Bool) (_e : SockEvent) :
    (SState × Meters × Bool) × List Output :=
  if s.2.2 = true then (s, [])
  else
    match s.1.conns connId with
    | none => ((s.1, s.2.1, true), [])
    | some ctx =>
      let r := onDisconnect cfg s.1 s.2.1 ctx
      ((r.1.1, r.1.2, true), r.2)

/-- Process a sequence of socket lifecycle events. -/
def runSockEvents (cfg : Config) (connId : String) :
    SState × Meters × Bool → List SockEvent →
    (SState × Meters × Bool) × List Output
| s, [] => (s, [])
| s, e :: es =>
  let r := sockEventStep cfg connId s e
  let rest := runSockEvents cfg connId r.1 es
  (rest.1, r.2 ++ rest.2)

/-! ### Keep-alive sweep — handlers.ts lines 63-79

Every `PING_INTERVAL` the sweep visits each connection: non-open
sockets are skipped; a connection awaiting a pong for longer than
`PING_TIMEOUT` since its last pong is terminated; otherwise a ping is
dispatched and `awaitingPong` is set. -/

structure PingConn where
  lastPongMs : Nat
  awaitingPong : Bool
  alive : Bool
deriving DecidableEq

/-- One sweep visit of a connection at wall-clock `now`. -/
def pingSweepStep (pingTimeout now : Nat) (c : PingConn) : PingConn :=
  if c.alive = false then c
  else if c.awaitingPong = true ∧ pingTimeout < now - c.lastPongMs then
    { c with alive := false }
  else
    { c with awaitingPong := true }

/-- The sweeps at times `t0 + interval`, …, `t0 + k * interval` applied
to a connection whose client stays silent (no pong updates between
sweeps). -/
def sweepsFrom (pingTimeout interval t0 : Nat) (c : PingConn) :
    Nat → PingConn
| 0 => c
| k + 1 => pingSweepStep pingTimeout (t0 + (k + 1) * interval)
    (sweepsFrom pingTimeout interval t0 c k)

/-! ## Theorems -/

/-- C5: `take(n)` first lazily refills with
`periods = floor(elapsed/interval)`, adding `periods × refill_tokens`
capped at `capacity` and advancing the last-refill marker by
`periods × interval`; it returns `true` iff the refilled tokens are
`≥ n`, deducting `n` exactly when it returns `true`; and for every
`k ≥ 1`, after no calls for `k × interval` a `take(capacity)` succeeds
once and the immediately following `take(1)` fails.  (`refill_tokens =
capacity` as both buckets are configured in handlers.ts; the bucket
starts within capacity, as every reachable bucket does.) -/
theorem tokenBucket_take_spec (cfg : BucketCfg) (b : Bucket) (now n k t0 : Nat)
    (hb : b.tokens ≤ cfg.capacity) (hcap : 1 ≤ cfg.capacity)
    (hre : cfg.capacity ≤ cfg.refillTokens) (hiv : 1 ≤ cfg.refillEveryMs)
    (hk : 1 ≤ k) (hlast : b.lastRefillMs = t0) :
    ((b.refill cfg now).tokens =
        min cfg.capacity
          (b.tokens + (now - b.lastRefillMs) / cfg.refillEveryMs * cfg.refillTokens)
      ∧ (b.refill cfg now).lastRefillMs =
        b.lastRefillMs + (now - b.lastRefillMs) / cfg.refillEveryMs * cfg.refillEveryMs)
    ∧ ((b.take cfg now n).1 = true ↔ n ≤ (b.refill cfg now).tokens)
    ∧ ((b.take cfg now n).1 = true →
        (b.take cfg now n).2.tokens = (b.refill cfg now).tokens - n)
    ∧ ((b.take cfg now n).1 = false → (b.take cfg now n).2 = b.refill cfg now)
    ∧ ((b.take cfg (t0 + k * cfg.refillEveryMs) cfg.capacity).1 = true
      ∧ (((b.take cfg (t0 + k * cfg.refillEveryMs) cfg.capacity).2.take cfg
            (t0 + k * cfg.refillEveryMs) 1).1 = false)) := by
  have hrefill : ∀ t, (b.refill cfg t).tokens =
      min cfg.capacity (b.tokens + (t - b.lastRefillMs) / cfg.refillEveryMs * cfg.refillTokens)
      ∧ (b.refill cfg t).lastRefillMs =
        b.lastRefillMs + (t - b.lastRefillMs) / cfg.refillEveryMs * cfg.refillEveryMs := by
    intro t
    unfold Bucket.refill
    by_cases h0 : t - b.lastRefillMs = 0
    · simp [h0, Nat.min_eq_right hb]
    · by_cases hp : (t - b.lastRefillMs) / cfg.refillEveryMs = 0
      · simp [h0, hp, Nat.min_eq_right hb]
      · simp [h0, hp]
  have htake : ∀ t m, ((b.take cfg t m).1 = true ↔ m ≤ (b.refill cfg t).tokens)
      ∧ ((b.take cfg t m).1 = true →
          (b.take cfg t m).2.tokens = (b.refill cfg t).tokens - m)
      ∧ ((b.take cfg t m).1 = false → (b.take cfg t m).2 = b.refill cfg t) := by
    intro t m
    unfold Bucket.take
    by_cases hm : m = 0
    · subst hm; simp
    · by_cases hlt : (b.refill cfg t).tokens < m
      · simp [hm, hlt]
      · simp [hm, hlt]
        omega
  refine ⟨hrefill now, (htake now n).1, (htake now n).2.1, (htake now n).2.2, ?_, ?_⟩
  · -- the refill after k idle intervals restores a full bucket
    rcases htake (t0 + k * cfg.refillEveryMs) cfg.capacity with ⟨h1, _, _⟩
    rcases hrefill (t0 + k * cfg.refillEveryMs) with ⟨h2, _⟩
    have hdiv : (t0 + k * cfg.refillEveryMs - b.lastRefillMs) / cfg.refillEveryMs = k := by
      rw [hlast]
      have : t0 + k * cfg.refillEveryMs - t0 = k * cfg.refillEveryMs := by omega
      rw [this, Nat.mul_div_cancel _ (by omega)]
    rw [h1, h2, hdiv]
    have : cfg.capacity ≤ b.tokens + k * cfg.refillTokens := by
      have : cfg.capacity ≤ k * cfg.refillTokens := by
        calc cfg.capacity ≤ cfg.refillTokens := hre
        _ ≤ k * cfg.refillTokens := Nat.le_mul_of_pos_left _ (by omega)
      omega
    omega
  · -- the immediately following take(1) fails: the bucket was drained
    -- and no wall-clock time has passed
    set nowk := t0 + k * cfg.refillEveryMs with hnow
    rcases htake nowk cfg.capacity with ⟨h1, h2, _⟩
    rcases hrefill nowk with ⟨h2r, h3r⟩
    have hdiv : (nowk - b.lastRefillMs) / cfg.refillEveryMs = k := by
      rw [hlast, hnow]
      have : t0 + k * cfg.refillEveryMs - t0 = k * cfg.refillEveryMs := by omega
      rw [this, Nat.mul_div_cancel _ (by omega)]
    have hfull : cfg.capacity ≤ (b.refill cfg nowk).tokens := by
      rw [h2r, hdiv]
      have : cfg.capacity ≤ k * cfg.refillTokens := by
        calc cfg.capacity ≤ cfg.refillTokens := hre
        _ ≤ k * cfg.refillTokens := Nat.le_mul_of_pos_left _ (by omega)
      omega
    have hok : (b.take cfg nowk cfg.capacity).1 = true := h1.2 hfull
    have htok : (b.take cfg nowk cfg.capacity).2.tokens =
        (b.refill cfg nowk).tokens - cfg.capacity := h2 hok
    have htok0 : (b.take cfg nowk cfg.capacity).2.tokens = 0 := by
      rw [htok, h2r, hdiv]; omega
    have hlast2 : (b.take cfg nowk cfg.capacity).2.lastRefillMs = nowk := by
      unfold Bucket.take
      have : ¬ cfg.capacity = 0 := by omega
      by_cases hlt : (b.refill cfg nowk).tokens < cfg.capacity
      · omega
      · simp [this, hlt]
        rw [h3r, hdiv, hlast, hnow]
    -- the second take refills nothing (elapsed = 0) and finds 0 tokens
    set b2 := (b.take cfg nowk cfg.capacity).2 with hb2
    have hrefl2 : b2.refill cfg nowk = b2 := by
      unfold Bucket.refill
      rw [hlast2]
      simp
    unfold Bucket.take
    rw [hrefl2]
    simp [htok0]

/-- C5 witness: capacity 200 (the `MAX_MSGS_PER_10S` default), interval
10 000 ms, one idle interval. -/
theorem tokenBucket_take_spec_witness :
    ((Bucket.take ⟨200, 200, 10000⟩ ⟨200, 0⟩ 10000 200).1 = true
      ∧ (((Bucket.take ⟨200, 200, 10000⟩ ⟨200, 0⟩ 10000 200).2.take
            ⟨200, 200, 10000⟩ 10000 1).1 = false)) :=
  (tokenBucket_take_spec ⟨200, 200, 10000⟩ ⟨200, 0⟩ 10000 5 1 0
    (by decide) (by decide) (by decide) (by decide) (by decide) rfl).2.2.2.2

/-- Once the `disconnected` flag is set, further socket events change
nothing and emit nothing. -/
theorem runSockEvents_flag_set (cfg : Config) (connId : String)
    (st : SState) (mt : Meters) (es : List SockEvent) :
    runSockEvents cfg connId (st, mt, true) es = ((st, mt, true), []) := by
  induction es with
  | nil => rfl
  | cons e es ih =>
    simp [runSockEvents, sockEventStep, ih]

/-- `leaveRoom` leaves the local room entry either deleted or with the
connection erased from its membership. -/
theorem leaveRoomH_membership (cfg : Config) (st : SState) (ctx : ConnCtx)
    (rid : String) (lr : LocalRoom) (hroom : ctx.roomId = some rid)
    (hlr : st.localRooms rid = some lr) :
    (leaveRoomH cfg st ctx rid).1.localRooms rid = none ∨
    (leaveRoomH cfg st ctx rid).1.localRooms rid =
      some { lr with conns := lr.conns.erase ctx.connId } := by
  unfold leaveRoomH
  have hlr1 : (st.setConn { ctx with roomId := none }).localRooms rid = some lr := hlr
  simp only [hroom, ne_eq, not_true_eq_false, if_false, hlr1]
  set st2 := (st.setConn { ctx with roomId := none }).setLocal rid
    (some { lr with conns := lr.conns.erase ctx.connId }) with hst2
  have hst2r : st2.localRooms rid = some { lr with conns := lr.conns.erase ctx.connId } := by
    simp [hst2, SState.setLocal]
  by_cases hz : (st2.store.leave rid ctx.connId).1 = 0
  · simp only [hz, if_true]
    unfold cleanupIfEmpty
    simp only [hst2r]
    by_cases hne : lr.conns.erase ctx.connId ≠ []
    · right
      simp [hne, hst2r]
    · left
      simp [hne, SState.setLocal]
  · right
    simp [hz, hst2r]

/-- C6: admission and disconnect keep the meters balanced.  A socket
rejected by the global or the per-IP ceiling leaves both meters exactly
as they were; an accepted socket increments both; and any non-empty
sequence of `close`/`error` events on one socket has exactly the effect
of the first event — one decrement of each meter and one removal of the
connection's room membership. -/
theorem admission_meters_balanced (gm im : Nat) (m : Meters) (ip : String)
    (cfg : Config) (connId : String) (st : SState) (mt : Meters)
    (e : SockEvent) (es : List SockEvent) (ctx : ConnCtx) :
    ((admitConn gm im m ip).1 = .rejectedGlobal → (admitConn gm im m ip).2 = m)
    ∧ ((admitConn gm im m ip).1 = .rejectedIp → (admitConn gm im m ip).2 = m)
    ∧ ((admitConn gm im m ip).1 = .acceptedConn →
        (admitConn gm im m ip).2.global = m.global + 1
        ∧ (admitConn gm im m ip).2.perIp.get ip = m.perIp.get ip + 1
        ∧ ∀ j, j ≠ ip → (admitConn gm im m ip).2.perIp.get j = m.perIp.get j)
    ∧ (runSockEvents cfg connId (st, mt, false) (e :: es) =
        sockEventStep cfg connId (st, mt, false) e)
    ∧ (st.conns connId = some ctx → ctx.connId = connId →
        (sockEventStep cfg connId (st, mt, false) e).1.2.1.global = mt.global - 1
        ∧ (sockEventStep cfg connId (st, mt, false) e).1.2.1.perIp.get ctx.ip
            = mt.perIp.get ctx.ip - 1
        ∧ (∀ j, j ≠ ctx.ip →
            (sockEventStep cfg connId (st, mt, false) e).1.2.1.perIp.get j
              = mt.perIp.get j)
        ∧ (sockEventStep cfg connId (st, mt, false) e).1.1.conns connId = none
        ∧ ∀ rid lr, ctx.roomId = some rid → st.localRooms rid = some lr →
            lr.conns.Nodup →
            ((sockEventStep cfg connId (st, mt, false) e).1.1.localRooms rid = none
              ∨ ∃ lr2,
                  (sockEventStep cfg connId (st, mt, false) e).1.1.localRooms rid
                    = some lr2 ∧ connId ∉ lr2.conns)) := by
  refine ⟨?_, ?_, ?_, ?_, ?_⟩
  · intro h
    unfold admitConn at h ⊢
    unfold globalTryInc IpCounts.tryInc at h ⊢
    by_cases hg : gm ≤ m.global
    · simp [hg]
    · by_cases hi : im ≤ m.perIp.get ip
      · simp [hg, hi] at h
      · simp [hg, hi] at h
  · intro h
    unfold admitConn at h ⊢
    unfold globalTryInc IpCounts.tryInc globalDec at h ⊢
    by_cases hg : gm ≤ m.global
    · simp [hg] at h
    · by_cases hi : im ≤ m.perIp.get ip
      · simp [hg, hi]
      · simp [hg, hi] at h
  · intro h
    unfold admitConn at h ⊢
    unfold globalTryInc IpCounts.tryInc IpCounts.get at h ⊢
    by_cases hg : gm ≤ m.global
    · simp [hg] at h
    · by_cases hi : im ≤ m.perIp ip
      · simp [hg, hi] at h
      · refine ⟨by simp [hg, hi], by simp [hg, hi], ?_⟩
        intro j hj
        simp [hg, hi, hj]
  · show runSockEvents cfg connId (st, mt, false) (e :: es) = _
    have hstep : (sockEventStep cfg connId (st, mt, false) e).1.2.2 = true := by
      unfold sockEventStep
      cases h : st.conns connId <;> simp [h]
    unfold runSockEvents
    rcases hs : sockEventStep cfg connId (st, mt, false) e with ⟨⟨st2, mt2, fl⟩, outs⟩
    have : fl = true := by rw [hs] at hstep; exact hstep
    subst this
    simp [runSockEvents_flag_set]
  · intro hconn hid
    have hstep : sockEventStep cfg connId (st, mt, false) e =
        ((let l := match ctx.roomId with
            | some rid => leaveRoomH cfg st ctx rid
            | none => (st, ([] : List Output))
          { l.1 with conns := fun i => if i = ctx.connId then none else l.1.conns i },
          { global := globalDec mt.global, perIp := mt.perIp.dec ctx.ip }, true),
          (match ctx.roomId with
            | some rid => leaveRoomH cfg st ctx rid
            | none => (st, ([] : List Output))).2) := by
      unfold sockEventStep onDisconnect
      simp [hconn]
    rw [hstep]
    refine ⟨rfl, ?_, ?_, ?_, ?_⟩
    · simp [IpCounts.dec, IpCounts.get]
    · intro j hj
      simp [IpCounts.dec, IpCounts.get, hj]
    · simp [hid]
    · intro rid lr hrid hlr hnd
      simp only [hrid]
      have h2 := leaveRoomH_membership cfg st ctx rid lr hrid hlr
      rcases h2 with h2 | h2
    -- the local entry was deleted on cleanup, or the connection is erased
      · left
        simpa using h2
      · right
        refine ⟨{ lr with conns := lr.conns.erase ctx.connId }, by simpa using h2, ?_⟩
        intro hmem
        rw [← hid] at hmem
        have := (List.Nodup.mem_erase_iff hnd).1 hmem
        exact this.1 rfl

/-! Concrete demonstration state used by the witnesses: one room `"R"`
with members `c1`, `c2`, connection `c1` admitted from IP `9.9.9.9`,
meters holding 5 global connections and 2 on that IP. -/

def demoConfig : Config :=
  ⟨262144, 65536, 10, 600000, 60000, 200, 1048576,
    "0123456789abcdef0123456789abcdef"⟩

def demoStore : Store :=
  { rooms := fun r => if r = "R" then some ⟨["c1", "c2"], 2⟩ else none
    jtis := fun _ => []
    jtiExpiry := fun _ _ => none }

def demoCtx1 : ConnCtx :=
  ⟨"c1", "9.9.9.9", some "R", some "P1", ⟨200, 0⟩, ⟨1048576, 0⟩, 0, false,
    true, 0⟩

def demoLocalRoom : LocalRoom := ⟨["c1", "c2"], "tok", 60000⟩

def demoState : SState :=
  { store := demoStore
    localRooms := fun r => if r = "R" then some demoLocalRoom else none
    conns := fun i => if i = "c1" then some demoCtx1 else none }

def demoMeters : Meters :=
  ⟨5, fun i => if i = "9.9.9.9" then 2 else 0⟩

/-- C6 witness: on the demonstration state, a `close` followed by a
spurious `error` event equals the `close` alone; the meters lose one
slot each and the membership of `c1` is gone. -/
theorem admission_meters_balanced_witness :
    (runSockEvents demoConfig "c1" (demoState, demoMeters, false)
        [.evClose, .evError] =
      sockEventStep demoConfig "c1" (demoState, demoMeters, false) .evClose)
    ∧ (sockEventStep demoConfig "c1" (demoState, demoMeters, false)
        .evClose).1.2.1.global = demoMeters.global - 1
    ∧ (sockEventStep demoConfig "c1" (demoState, demoMeters, false)
        .evClose).1.2.1.perIp.get "9.9.9.9"
        = demoMeters.perIp.get "9.9.9.9" - 1
    ∧ (sockEventStep demoConfig "c1" (demoState, demoMeters, false)
        .evClose).1.1.conns "c1" = none
    ∧ ((sockEventStep demoConfig "c1" (demoState, demoMeters, false)
          .evClose).1.1.localRooms "R" = none
        ∨ ∃ lr2,
            (sockEventStep demoConfig "c1" (demoState, demoMeters, false)
              .evClose).1.1.localRooms "R" = some lr2 ∧ "c1" ∉ lr2.conns) := by
  have h := admission_meters_balanced 2 1 demoMeters "9.9.9.9" demoConfig "c1"
    demoState demoMeters .evClose [.evError] demoCtx1
  have h5 := h.2.2.2.2 (by decide) (by decide)
  exact ⟨h.2.2.2.1, h5.1, h5.2.1, h5.2.2.2.1,
    h5.2.2.2.2 "R" demoLocalRoom (by decide) (by decide) (by decide)⟩

/-- Invariant of one room record: the stored `count` mirrors the
cardinality of the stored members set and stays within the configured
maximum. -/
def roomInv (maxP : Nat) (rd : RoomData) : Prop :=
  rd.count = rd.members.length ∧ rd.count ≤ maxP ∧ rd.members.Nodup

/-- The invariant over the whole keyspace. -/
def storeInv (maxP : Nat) (s : Store) : Prop :=
  ∀ rid rd, s.rooms rid = some rd → roomInv maxP rd

/-- C2: at every atomic commit point of `createRoom`, `tryJoin` and
`leave` the stored count equals the cardinality of the stored members
set and never exceeds `max_participants`.  `createRoom` is only ever
invoked with a freshly generated random room id (handlers.ts line 315,
server.ts line 129), stated here as the absence hypothesis. -/
theorem roomStore_count_invariant (maxP : Nat) (s : Store) (rid conn : String)
    (hmax : 1 ≤ maxP) (hinv : storeInv maxP s) :
    (s.rooms rid = none → storeInv maxP (s.createRoom rid conn))
    ∧ storeInv maxP (s.tryJoin rid conn maxP).2
    ∧ storeInv maxP (s.leave rid conn).2 := by
  refine ⟨?_, ?_, ?_⟩
  · intro hnone r rd h
    unfold Store.createRoom at h
    simp only [hnone, Option.map_none, Option.getD_none] at h
    by_cases hr : r = rid
    · rw [if_pos hr, Option.some_inj] at h
      rw [← h]
      exact ⟨rfl, by simpa [saddList] using hmax, by simp [saddList]⟩
    · rw [if_neg hr] at h
      exact hinv r rd h
  · unfold Store.tryJoin
    cases hr : s.rooms rid with
    | none => exact hinv
    | some rd0 =>
      dsimp only
      by_cases hm : conn ∈ rd0.members
      · rw [if_pos hm]
        exact hinv
      · rw [if_neg hm]
        by_cases hfull : maxP ≤ rd0.count
        · rw [if_pos hfull]
          exact hinv
        · rw [if_neg hfull]
          intro r rd h
          dsimp only at h
          by_cases hreq : r = rid
          · rw [if_pos hreq, Option.some_inj] at h
            rw [← h]
            obtain ⟨h1, h2, h3⟩ := hinv rid rd0 hr
            refine ⟨?_, ?_, ?_⟩
            · dsimp only
              simp [h1]
            · dsimp only
              omega
            · dsimp only
              simp [List.nodup_append, h3, hm]
          · rw [if_neg hreq] at h
            exact hinv r rd h
  · unfold Store.leave
    cases hr : s.rooms rid with
    | none => exact hinv
    | some rd0 =>
      obtain ⟨h1, h2, h3⟩ := hinv rid rd0 hr
      dsimp only
      by_cases hz :
          (if conn ∈ rd0.members ∧ 0 < rd0.count then rd0.count - 1 else rd0.count) = 0
      · rw [if_pos hz]
        intro r rd h
        dsimp only at h
        by_cases hreq : r = rid
        · subst hreq
          simp at h
        · rw [if_neg hreq] at h
          exact hinv r rd h
      · rw [if_neg hz]
        intro r rd h
        dsimp only at h
        by_cases hreq : r = rid
        · rw [if_pos hreq, Option.some_inj] at h
          rw [← h]
          by_cases hm : conn ∈ rd0.members
          · have hc : 0 < rd0.count := by
              rcases Nat.eq_zero_or_pos rd0.count with h0 | h0
              · rw [h1] at h0
                have := List.length_pos.2 (List.ne_nil_of_mem hm)
                omega
              · exact h0
            rw [if_pos ⟨hm, hc⟩] at hz ⊢
            refine ⟨?_, ?_, h3.erase conn⟩
            · dsimp only
              rw [List.length_erase_of_mem hm]
              omega
            · dsimp only
              omega
          · have hcond : ¬ (conn ∈ rd0.members ∧ 0 < rd0.count) := by
              intro hc
              exact hm hc.1
            rw [if_neg hcond] at hz ⊢
            rw [List.erase_of_not_mem hm]
            exact ⟨h1, h2, h3⟩
        · rw [if_neg hreq] at h
          exact hinv r rd h

/-- The demonstration store satisfies the invariant. -/
theorem demoStore_inv : storeInv 10 demoStore := by
  intro rid rd h
  unfold demoStore at h
  dsimp only at h
  by_cases hr : rid = "R"
  · rw [if_pos hr, Option.some_inj] at h
    rw [← h]
    exact ⟨rfl, by decide, by decide⟩
  · simp [hr] at h

/-- C2 witness: a join and a leave on the demonstration store keep the
invariant. -/
theorem roomStore_count_invariant_witness :
    storeInv 10 ((demoStore.tryJoin "R" "c3" 10).2)
    ∧ storeInv 10 ((demoStore.leave "R" "c1").2) :=
  ⟨(roomStore_count_invariant 10 demoStore "R" "c3" (by decide) demoStore_inv).2.1,
   (roomStore_count_invariant 10 demoStore "R" "c1" (by decide) demoStore_inv).2.2⟩

/-! ### C4 — single-use jti markers and the replay error path -/

/-- C4 (amended: the wire code is `ERR_TOKEN_REPLAY`): once
`markTokenJtiUsed` has returned `true` for `(rid, jti)` at time `now`
with TTL `ttl`, every subsequent call for the same pair returns `false`
and leaves the store unchanged until the marker expires at `now + ttl`
(after which it succeeds again); and a `JOIN_REQUEST` whose verified
token carries an already-consumed `jti` is answered by exactly one
`ERROR{code:"ERR_TOKEN_REPLAY", retryable:true}` frame, no join occurs
(the connection stays unjoined) and the room keyspace — in particular
every participant count — is unchanged. -/
theorem jti_single_use_replay (s : Store) (rid jti : String)
    (ttl ttl2 now now2 : Nat) (cfg : Config) (mac : MacFn) (st : SState)
    (connId : String) (rawBytes : Nat) (token qrToken labelOpt : Option String)
    (rand : Rand) (ctx : ConnCtx) (tokStr roomId : String) (texp : Nat)
    (tjti : String) :
    ((s.markTokenJtiUsed rid jti ttl now).1 = true →
      (now2 < now + ttl →
        (s.markTokenJtiUsed rid jti ttl now).2.markTokenJtiUsed rid jti ttl2 now2
          = (false, (s.markTokenJtiUsed rid jti ttl now).2))
      ∧ (now + ttl ≤ now2 →
        ((s.markTokenJtiUsed rid jti ttl now).2.markTokenJtiUsed rid jti ttl2
            now2).1 = true))
    ∧ (st.conns connId = some ctx → ctx.connId = connId →
        ¬ cfg.maxWsMsgBytes < rawBytes →
        (ctx.msgBucket.take (msgBucketCfg cfg) now 1).1 = true →
        (ctx.bytesBucket.take (bytesBucketCfg cfg) now rawBytes).1 = true →
        ctx.sockOpen = true → ¬ cfg.maxWsMsgBytes * 4 < ctx.buffered →
        ctx.roomId = none →
        effectiveTokenOf token qrToken = some tokStr →
        verifyJoinToken mac cfg.joinTokenSecret tokStr
          = .okToken roomId texp tjti →
        ¬ texp < now →
        (st.store.markTokenJtiUsed roomId tjti (max 1 (texp - now + 5000))
            now).1 = false →
        (handleRaw cfg mac st connId rawBytes
            (some (.joinRequest roomId token qrToken labelOpt)) now rand).2
          = [.send connId (.errorF "ERR_TOKEN_REPLAY" true)]
        ∧ (handleRaw cfg mac st connId rawBytes
            (some (.joinRequest roomId token qrToken labelOpt)) now rand).1.store
          = st.store
        ∧ (handleRaw cfg mac st connId rawBytes
            (some (.joinRequest roomId token qrToken labelOpt)) now rand).1.localRooms
          = st.localRooms
        ∧ (handleRaw cfg mac st connId rawBytes
            (some (.joinRequest roomId token qrToken labelOpt)) now rand).1.conns
              connId
          = some (ctxCharged cfg ctx now rawBytes)
        ∧ (ctxCharged cfg ctx now rawBytes).roomId = none) := by
  constructor
  · intro hfresh
    have hexp2 : (s.markTokenJtiUsed rid jti ttl now).2.jtiExpiry rid jti
        = some (now + ttl) := by
      unfold Store.markTokenJtiUsed at hfresh ⊢
      by_cases hlive : (match s.jtiExpiry rid jti with
        | some e => decide (now < e)
        | none => false) = true
      · rw [if_pos hlive] at hfresh
        simp at hfresh
      · rw [if_neg hlive] at hfresh ⊢
        simp
    set s2 := (s.markTokenJtiUsed rid jti ttl now).2 with hs2
    constructor
    · intro hlt
      conv_lhs => unfold Store.markTokenJtiUsed
      rw [hexp2]
      simp [hlt]
    · intro hge
      conv_lhs => unfold Store.markTokenJtiUsed
      rw [hexp2]
      have : ¬ now2 < now + ttl := by omega
      simp [this]
  · intro hconn hid hsize ht1 ht2 hopen hbuf hroom heff hver hexp hmark
    rw [handleRaw_grants cfg mac st connId rawBytes _ now rand ctx hconn hsize ht1 ht2]
    have hctx1room : (ctxCharged cfg ctx now rawBytes).roomId = none := hroom
    have hctx1open : (ctxCharged cfg ctx now rawBytes).sockOpen = true := hopen
    have hctx1id : (ctxCharged cfg ctx now rawBytes).connId = connId := hid
    have hctx1buf : ¬ cfg.maxWsMsgBytes * 4 <
        (ctxCharged cfg ctx now rawBytes).buffered := hbuf
    set ctx1 := ctxCharged cfg ctx now rawBytes with hctx1
    set st1 := st.setConn ctx1 with hst1
    have hst1store : st1.store = st.store := rfl
    have hmk : st1.store.markTokenJtiUsed roomId tjti
        (max 1 (texp - now + 5000)) now
        = (false, st.store) := by
      rw [hst1store]
      unfold Store.markTokenJtiUsed at hmark ⊢
      by_cases hlive : (match st.store.jtiExpiry roomId tjti with
        | some e => decide (now < e)
        | none => false) = true
      · rw [if_pos hlive]
      · rw [if_neg hlive] at hmark
        simp at hmark
    unfold handleDispatch handleJoinRequest
    rw [hctx1room]
    simp only [Option.isSome_none, Bool.false_eq_true, if_false, heff, hver]
    rw [if_neg (by simp), if_neg hexp, hmk]
    simp only [if_pos rfl]
    unfold wsSendOuts
    rw [hctx1open]
    simp only [Bool.true_eq_false, if_false, hctx1buf, if_false, hctx1id]
    refine ⟨rfl, rfl, rfl, ?_, by trivial⟩
    show st1.conns connId = some ctx1
    rw [hst1]
    unfold SState.setConn
    simp [hctx1id]

/-! A concrete replay scenario: room `replayRid` exists with one member
`cA`; the token `replayTok` (exp 99999) has already been consumed — its
`(rid, jti)` marker is live.  Connection `cB` (unjoined, open socket)
replays it at time 50000. -/

def replayRid : String := "RIDRIDRIDRIDRIDRIDRIDR"

def replayJti : String := "JTIJTIJTIJTIJTIJTIJTIJ"

def replayTok : String :=
  mintJoinToken macModel demoConfig.joinTokenSecret replayRid 99999 replayJti

def replayStore : Store :=
  { rooms := fun r => if r = replayRid then some ⟨["cA"], 1⟩ else none
    jtis := fun r => if r = replayRid then [replayJti] else []
    jtiExpiry := fun r j =>
      if r = replayRid ∧ j = replayJti then some 999999999 else none }

def replayCtx : ConnCtx :=
  ⟨"cB", "7.7.7.7", none, none, ⟨200, 0⟩, ⟨1048576, 0⟩, 0, false, true, 0⟩

def replayState : SState :=
  { store := replayStore
    localRooms := fun r => if r = replayRid then some ⟨["cA"], "q", 0⟩ else none
    conns := fun i => if i = "cB" then some replayCtx else none }

def replayRand : Rand := ⟨"x", "y", "z"⟩

set_option maxRecDepth 100000 in
/-- C4 counterexample: the replayed `JOIN_REQUEST` is answered with the
wire code `"ERR_TOKEN_REPLAY"`, not `"TOKEN_REPLAY"` as the claim
names it. -/
theorem tokenReplay_code_counterexample :
    (handleRaw demoConfig macModel replayState "cB" 100
        (some (.joinRequest replayRid (some replayTok) none none)) 50000
        replayRand).2
      = [.send "cB" (.errorF "ERR_TOKEN_REPLAY" true)]
    ∧ "ERR_TOKEN_REPLAY" ≠ "TOKEN_REPLAY" := by
  constructor
  · decide
  · decide

set_option maxRecDepth 100000 in
/-- C4 witness: the amended theorem applied to the concrete replay
scenario. -/
theorem jti_single_use_replay_witness :
    ((replayStore.markTokenJtiUsed "A" "B" 7 3).1 = true →
      (2 < 3 + 7 →
        (replayStore.markTokenJtiUsed "A" "B" 7 3).2.markTokenJtiUsed "A" "B" 5 2
          = (false, (replayStore.markTokenJtiUsed "A" "B" 7 3).2))
      ∧ (3 + 7 ≤ 2 →
        ((replayStore.markTokenJtiUsed "A" "B" 7 3).2.markTokenJtiUsed "A" "B" 5
            2).1 = true))
    ∧ ((handleRaw demoConfig macModel replayState "cB" 100
          (some (.joinRequest replayRid (some replayTok) none none)) 50000
          replayRand).1.store
        = replayState.store
      ∧ (handleRaw demoConfig macModel replayState "cB" 100
          (some (.joinRequest replayRid (some replayTok) none none)) 50000
          replayRand).1.localRooms
        = replayState.localRooms) := by
  have h := jti_single_use_replay replayStore "A" "B" 7 5 3 2 demoConfig
    macModel replayState "cB" 100 (some replayTok) none none replayRand
    replayCtx replayTok replayRid 99999 replayJti
  have h2 := h.2 (by decide) (by decide) (by decide) (by decide) (by decide)
    (by decide) (by decide) (by decide) (by decide) (by decide) (by decide)
    (by decide)
  exact ⟨h.1, h2.2.1, h2.2.2.1⟩

/-! ### C7 — keep-alive termination bound -/

/-- C7: a connection whose client never answers is terminated within
`ping_interval_ms + ping_timeout_ms` of the sweep that dispatched the
ping.  At time `t0` the sweep finds the connection open and not
awaiting a pong and dispatches a ping; the client stays silent, so
after at most `pingTimeout / interval + 1` further sweeps — i.e. by
wall-clock time `t0 + interval + pingTimeout` at the latest — the
connection is terminated.  (The code measures the timeout from the last
pong, which is never later than the dispatch, so termination is no
later than a dispatch-based measurement.) -/
theorem ping_timeout_termination (pingTimeout interval t0 lastPong : Nat)
    (hI : 1 ≤ interval) (hL : lastPong ≤ t0) :
    pingSweepStep pingTimeout t0 ⟨lastPong, false, true⟩
      = ⟨lastPong, true, true⟩
    ∧ (sweepsFrom pingTimeout interval t0 ⟨lastPong, true, true⟩
        (pingTimeout / interval + 1)).alive = false
    ∧ (pingTimeout / interval + 1) * interval ≤ pingTimeout + interval := by
  have hdm := Nat.div_add_mod pingTimeout interval
  have hmod := Nat.mod_lt pingTimeout (show 0 < interval by omega)
  refine ⟨?_, ?_, ?_⟩
  · unfold pingSweepStep
    simp
  · have hstate : ∀ k,
        sweepsFrom pingTimeout interval t0 ⟨lastPong, true, true⟩ k
          = ⟨lastPong, true, true⟩
        ∨ (sweepsFrom pingTimeout interval t0 ⟨lastPong, true, true⟩ k).alive
            = false := by
      intro k
      induction k with
      | zero => exact Or.inl rfl
      | succ k ih =>
        rcases ih with ih | ih
        · unfold sweepsFrom
          rw [ih]
          unfold pingSweepStep
          by_cases hc :
              pingTimeout < t0 + (k + 1) * interval - lastPong
          · right
            simp [hc]
          · left
            simp [hc]
        · right
          unfold sweepsFrom pingSweepStep
          simp [ih]
    rcases hstate (pingTimeout / interval) with hk | hk
    · show (sweepsFrom pingTimeout interval t0 ⟨lastPong, true, true⟩
          (pingTimeout / interval + 1)).alive = false
      unfold sweepsFrom
      rw [hk]
      unfold pingSweepStep
      have hcond : pingTimeout <
          t0 + (pingTimeout / interval + 1) * interval - lastPong := by
        have hexpand : (pingTimeout / interval + 1) * interval
            = interval * (pingTimeout / interval) + interval := by ring
        omega
      simp [hcond]
    · unfold sweepsFrom
      unfold pingSweepStep
      simp [hk]
  · have hexpand : (pingTimeout / interval + 1) * interval
        = interval * (pingTimeout / interval) + interval := by ring
    omega

/-- C7 witness: the default configuration (`interval = 30000 ms`,
`timeout = 5000 ms`), dispatch at `t0 = 100000`. -/
theorem ping_timeout_termination_witness :
    pingSweepStep 5000 100000 ⟨100000, false, true⟩ = ⟨100000, true, true⟩
    ∧ (sweepsFrom 5000 30000 100000 ⟨100000, true, true⟩
        (5000 / 30000 + 1)).alive = false
    ∧ (5000 / 30000 + 1) * 30000 ≤ 5000 + 30000 :=
  ping_timeout_termination 5000 30000 100000 100000 (by decide) (by decide)

/-! ### C1 — APP_MSG fan-out -/

/-- The recipients of `APP_MSG{rid, ct}` frames among a handler's
outputs, in emission order. -/
def appMsgRecipients (outs : List Output) (rid ct : String) : List String :=
  outs.filterMap (fun o => match o with
    | .send dest (.appMsgF r c) => if r = rid ∧ c = ct then some dest else none
    | _ => none)

/-- A snapshot member actually receives a broadcast frame iff its
connection is known, its socket is open and its outbound buffer is
within `4 × MAX_WS_MSG_BYTES`. -/
def deliverable (cfg : Config) (st : SState) (id : String) : Bool :=
  match st.conns id with
  | none => false
  | some c => c.sockOpen && decide (¬ cfg.maxWsMsgBytes * 4 < c.buffered)

/-- The `APP_MSG` sends of one broadcast go exactly to the deliverable
members of the room snapshot, in snapshot order. -/
theorem broadcast_appMsg_recipients (cfg : Config) (st : SState)
    (rid ct : String) (lr : LocalRoom) (hlr : st.localRooms rid = some lr) :
    appMsgRecipients (broadcastOuts cfg st rid (.appMsgF rid ct)) rid ct
      = lr.conns.filter (deliverable cfg st) := by
  unfold broadcastOuts
  rw [hlr]
  dsimp only
  generalize lr.conns = l
  induction l with
  | nil => rfl
  | cons id rest ih =>
    simp only [List.flatMap_cons, List.filter_cons, appMsgRecipients,
      List.filterMap_append] at ih ⊢
    cases hc : st.conns id with
    | none => simp [deliverable, hc, ih]
    | some c =>
      cases hopen : c.sockOpen with
      | false => simp [deliverable, hc, hopen, ih]
      | true =>
        by_cases hbuf : cfg.maxWsMsgBytes * 4 < c.buffered
        · simp [deliverable, hc, hopen, hbuf, ih]
        · simp [deliverable, hc, hopen, hbuf, ih]

/-- C1 (amended: the sender is included in the fan-out — `broadcast`
iterates over the whole membership snapshot with no sender exclusion):
for every accepted `APP_MSG` (sender's current room is `rid`, rate and
size gates grant), the emitted `APP_MSG` frames carry the exact
`ciphertextB64` string and go exactly to the deliverable members of the
router's snapshot of `rid`, in snapshot order — each member once and no
one else; in particular the sender, being in the snapshot with an open
socket, receives its own echo. -/
theorem appMsg_fanout_delivery (cfg : Config) (mac : MacFn) (st : SState)
    (connId : String) (rawBytes : Nat) (rid ct : String) (now : Nat)
    (rand : Rand) (ctx : ConnCtx) (lr : LocalRoom)
    (hconn : st.conns connId = some ctx)
    (hsize : ¬ cfg.maxWsMsgBytes < rawBytes)
    (ht1 : (ctx.msgBucket.take (msgBucketCfg cfg) now 1).1 = true)
    (ht2 : (ctx.bytesBucket.take (bytesBucketCfg cfg) now rawBytes).1 = true)
    (hroom : ctx.roomId = some rid)
    (hct : ¬ cfg.maxAppCiphertextBytes < ct.utf8ByteSize)
    (hlr : st.localRooms rid = some lr) :
    appMsgRecipients
        (handleRaw cfg mac st connId rawBytes (some (.appMsg rid ct)) now
          rand).2 rid ct
      = lr.conns.filter
          (deliverable cfg (st.setConn (ctxCharged cfg ctx now rawBytes)))
    ∧ (ctx.connId ∈ lr.conns → ctx.sockOpen = true →
        ¬ cfg.maxWsMsgBytes * 4 < ctx.buffered →
        ctx.connId ∈ appMsgRecipients
          (handleRaw cfg mac st connId rawBytes (some (.appMsg rid ct)) now
            rand).2 rid ct) := by
  rw [handleRaw_grants cfg mac st connId rawBytes _ now rand ctx hconn hsize ht1 ht2]
  have hroom1 : (ctxCharged cfg ctx now rawBytes).roomId = some rid := hroom
  unfold handleDispatch handleAppMsg
  dsimp only
  rw [if_neg (by simp [hroom1]), if_neg hct]
  have hlr1 : (st.setConn (ctxCharged cfg ctx now rawBytes)).localRooms rid
      = some lr := hlr
  have hmain := broadcast_appMsg_recipients cfg
    (st.setConn (ctxCharged cfg ctx now rawBytes)) rid ct lr hlr1
  refine ⟨hmain, ?_⟩
  intro hmem hopen hbuf
  rw [hmain]
  rw [List.mem_filter]
  refine ⟨hmem, ?_⟩
  unfold deliverable
  have hcid : (st.setConn (ctxCharged cfg ctx now rawBytes)).conns ctx.connId
      = some (ctxCharged cfg ctx now rawBytes) := by
    unfold SState.setConn
    simp [ctxCharged]
  have ho : (ctxCharged cfg ctx now rawBytes).sockOpen = true := hopen
  have hb : ¬ cfg.maxWsMsgBytes * 4 <
      (ctxCharged cfg ctx now rawBytes).buffered := hbuf
  rw [hcid]
  dsimp only
  rw [ho]
  simp [hb]

/-! Concrete fan-out scenario: room `"R"` with members `cA`, `cB`, both
sockets open; `cA` relays a ciphertext. -/

def echoCtxA : ConnCtx :=
  ⟨"cA", "1.1.1.1", some "R", some "P1", ⟨200, 0⟩, ⟨1048576, 0⟩, 0, false,
    true, 0⟩

def echoCtxB : ConnCtx :=
  ⟨"cB", "2.2.2.2", some "R", some "P2", ⟨200, 0⟩, ⟨1048576, 0⟩, 0, false,
    true, 0⟩

def echoState : SState :=
  { store := { rooms := fun r => if r = "R" then some ⟨["cA", "cB"], 2⟩ else none
               jtis := fun _ => []
               jtiExpiry := fun _ _ => none }
    localRooms := fun r => if r = "R" then some ⟨["cA", "cB"], "q", 0⟩ else none
    conns := fun i =>
      if i = "cA" then some echoCtxA
      else if i = "cB" then some echoCtxB else none }

set_option maxRecDepth 100000 in
/-- C1 counterexample: `cA`'s `APP_MSG` is delivered to `cA` itself as
well as to `cB` — the sender does receive its own echo, contradicting
the claim's "and to no one else; in particular the sender does not
receive its own echo". -/
theorem appMsg_echo_counterexample :
    (handleRaw demoConfig macModel echoState "cA" 50
        (some (.appMsg "R" "AAA")) 1000 replayRand).2
      = [.send "cA" (.appMsgF "R" "AAA"), .send "cB" (.appMsgF "R" "AAA")] := by
  decide

set_option maxRecDepth 100000 in
/-- C1 witness: the amended theorem applied to the concrete fan-out
scenario. -/
theorem appMsg_fanout_delivery_witness :
    appMsgRecipients
        (handleRaw demoConfig macModel echoState "cA" 50
          (some (.appMsg "R" "AAA")) 1000 replayRand).2 "R" "AAA"
      = (["cA", "cB"] : List String).filter
          (deliverable demoConfig
            (echoState.setConn (ctxCharged demoConfig echoCtxA 1000 50)))
    ∧ "cA" ∈ appMsgRecipients
        (handleRaw demoConfig macModel echoState "cA" 50
          (some (.appMsg "R" "AAA")) 1000 replayRand).2 "R" "AAA" := by
  have h := appMsg_fanout_delivery demoConfig macModel echoState "cA" 50 "R"
    "AAA" 1000 replayRand echoCtxA ⟨["cA", "cB"], "q", 0⟩ (by decide)
    (by decide) (by decide) (by decide) (by decide) (by decide) (by decide)
  exact ⟨h.1, h.2 (by decide) (by decide) (by decide)⟩

/-! ### Join-path run lemmas -/

/-- A `JOIN_REQUEST` whose verified token hits a live jti marker:
the run returns the replay error and leaves everything but the sender's
rate buckets unchanged. -/
theorem joinRequest_replay_run (cfg : Config) (mac : MacFn) (st : SState)
    (connId : String) (rawBytes : Nat) (token qrToken labelOpt : Option String)
    (now : Nat) (rand : Rand) (ctx : ConnCtx) (tokStr roomId : String)
    (texp : Nat) (tjti : String)
    (hconn : st.conns connId = some ctx) (hid : ctx.connId = connId)
    (hsize : ¬ cfg.maxWsMsgBytes < rawBytes)
    (ht1 : (ctx.msgBucket.take (msgBucketCfg cfg) now 1).1 = true)
    (ht2 : (ctx.bytesBucket.take (bytesBucketCfg cfg) now rawBytes).1 = true)
    (hopen : ctx.sockOpen = true)
    (hbuf : ¬ cfg.maxWsMsgBytes * 4 < ctx.buffered)
    (hroom : ctx.roomId = none)
    (heff : effectiveTokenOf token qrToken = some tokStr)
    (hver : verifyJoinToken mac cfg.joinTokenSecret tokStr
      = .okToken roomId texp tjti)
    (hexp : ¬ texp < now)
    (hmark : (st.store.markTokenJtiUsed roomId tjti
      (max 1 (texp - now + 5000)) now).1 = false) :
    handleRaw cfg mac st connId rawBytes
        (some (.joinRequest roomId token qrToken labelOpt)) now rand
      = (st.setConn (ctxCharged cfg ctx now rawBytes),
          [.send connId (.errorF "ERR_TOKEN_REPLAY" true)]) := by
  rw [handleRaw_grants cfg mac st connId rawBytes _ now rand ctx hconn hsize ht1 ht2]
  have hctx1room : (ctxCharged cfg ctx now rawBytes).roomId = none := hroom
  have hctx1open : (ctxCharged cfg ctx now rawBytes).sockOpen = true := hopen
  have hctx1id : (ctxCharged cfg ctx now rawBytes).connId = connId := hid
  have hctx1buf : ¬ cfg.maxWsMsgBytes * 4 <
      (ctxCharged cfg ctx now rawBytes).buffered := hbuf
  set ctx1 := ctxCharged cfg ctx now rawBytes with hctx1
  set st1 := st.setConn ctx1 with hst1
  have hmk : st1.store.markTokenJtiUsed roomId tjti
      (max 1 (texp - now + 5000)) now = (false, st.store) := by
    show st.store.markTokenJtiUsed roomId tjti (max 1 (texp - now + 5000)) now
      = (false, st.store)
    unfold Store.markTokenJtiUsed at hmark ⊢
    by_cases hlive : (match st.store.jtiExpiry roomId tjti with
      | some e => decide (now < e)
      | none => false) = true
    · rw [if_pos hlive]
    · rw [if_neg hlive] at hmark
      simp at hmark
  unfold handleDispatch handleJoinRequest
  dsimp only
  rw [hctx1room]
  simp only [Option.isSome_none, Bool.false_eq_true, if_false, heff, hver]
  rw [if_neg (by simp), if_neg hexp, hmk]
  simp only [if_pos rfl]
  unfold wsSendOuts
  rw [hctx1open]
  simp only [Bool.true_eq_false, if_false, hctx1buf, if_false, hctx1id]
  rfl

/-- A `JOIN_REQUEST` whose verified token is fresh but whose `tryJoin`
reports the room full: the jti marker is consumed (not rolled back),
the reply is `ERR_ROOM_FULL` with `retryable = true`. -/
theorem joinRequest_full_run (cfg : Config) (mac : MacFn) (st : SState)
    (connId : String) (rawBytes : Nat) (token qrToken labelOpt : Option String)
    (now : Nat) (rand : Rand) (ctx : ConnCtx) (tokStr roomId : String)
    (texp : Nat) (tjti : String)
    (hconn : st.conns connId = some ctx) (hid : ctx.connId = connId)
    (hsize : ¬ cfg.maxWsMsgBytes < rawBytes)
    (ht1 : (ctx.msgBucket.take (msgBucketCfg cfg) now 1).1 = true)
    (ht2 : (ctx.bytesBucket.take (bytesBucketCfg cfg) now rawBytes).1 = true)
    (hopen : ctx.sockOpen = true)
    (hbuf : ¬ cfg.maxWsMsgBytes * 4 < ctx.buffered)
    (hroom : ctx.roomId = none)
    (heff : effectiveTokenOf token qrToken = some tokStr)
    (hver : verifyJoinToken mac cfg.joinTokenSecret tokStr
      = .okToken roomId texp tjti)
    (hexp : ¬ texp < now)
    (hmark : (st.store.markTokenJtiUsed roomId tjti
      (max 1 (texp - now + 5000)) now).1 = true)
    (htj : ((st.store.markTokenJtiUsed roomId tjti
      (max 1 (texp - now + 5000)) now).2.tryJoin roomId ctx.connId
        cfg.roomMaxParticipants).1 = .full) :
    handleRaw cfg mac st connId rawBytes
        (some (.joinRequest roomId token qrToken labelOpt)) now rand
      = ({ st.setConn (ctxCharged cfg ctx now rawBytes) with
            store := (st.store.markTokenJtiUsed roomId tjti
              (max 1 (texp - now + 5000)) now).2 },
          [.send connId (.errorF "ERR_ROOM_FULL" true)]) := by
  rw [handleRaw_grants cfg mac st connId rawBytes _ now rand ctx hconn hsize ht1 ht2]
  have hctx1room : (ctxCharged cfg ctx now rawBytes).roomId = none := hroom
  have hctx1open : (ctxCharged cfg ctx now rawBytes).sockOpen = true := hopen
  have hctx1id : (ctxCharged cfg ctx now rawBytes).connId = connId := hid
  have hctx1buf : ¬ cfg.maxWsMsgBytes * 4 <
      (ctxCharged cfg ctx now rawBytes).buffered := hbuf
  set ctx1 := ctxCharged cfg ctx now rawBytes with hctx1
  set st1 := st.setConn ctx1 with hst1
  have hmkpair : st1.store.markTokenJtiUsed roomId tjti
      (max 1 (texp - now + 5000)) now
      = (true, (st.store.markTokenJtiUsed roomId tjti
          (max 1 (texp - now + 5000)) now).2) := by
    show st.store.markTokenJtiUsed roomId tjti (max 1 (texp - now + 5000)) now
      = _
    rcases hm : st.store.markTokenJtiUsed roomId tjti
      (max 1 (texp - now + 5000)) now with ⟨b, s2⟩
    rw [hm] at hmark
    simp at hmark
    subst hmark
    rfl
  have hcid : ctx1.connId = ctx.connId := rfl
  unfold handleDispatch handleJoinRequest
  dsimp only
  rw [hctx1room]
  simp only [Option.isSome_none, Bool.false_eq_true, if_false, heff, hver]
  rw [if_neg (by simp), if_neg hexp, hmkpair]
  rw [if_neg (show ¬ ((true, (st.store.markTokenJtiUsed roomId tjti
    (max 1 (texp - now + 5000)) now).2).1 = false) by simp)]
  have htjpair : ((st.store.markTokenJtiUsed roomId tjti
      (max 1 (texp - now + 5000)) now).2.tryJoin roomId ctx1.connId
        cfg.roomMaxParticipants)
      = (JoinRes.full, (st.store.markTokenJtiUsed roomId tjti
          (max 1 (texp - now + 5000)) now).2) := by
    rw [hcid]
    rcases ht : ((st.store.markTokenJtiUsed roomId tjti
      (max 1 (texp - now + 5000)) now).2.tryJoin roomId ctx.connId
        cfg.roomMaxParticipants) with ⟨j, s2⟩
    rw [ht] at htj
    simp at htj
    subst htj
    have : s2 = (st.store.markTokenJtiUsed roomId tjti
        (max 1 (texp - now + 5000)) now).2 := by
      have h2 := ht
      unfold Store.tryJoin at h2
      rcases hr : (st.store.markTokenJtiUsed roomId tjti
          (max 1 (texp - now + 5000)) now).2.rooms roomId with _ | rd
      · rw [hr] at h2
        simp at h2
      · rw [hr] at h2
        dsimp only at h2
        by_cases hm2 : ctx.connId ∈ rd.members
        · rw [if_pos hm2] at h2
          simp at h2
        · rw [if_neg hm2] at h2
          by_cases hf : cfg.roomMaxParticipants ≤ rd.count
          · rw [if_pos hf] at h2
            exact (Prod.mk.injEq _ _ _ _ ▸ h2).2.symm
          · rw [if_neg hf] at h2
            simp at h2
    rw [this]
  rw [htjpair]
  dsimp only
  unfold wsSendOuts
  rw [hctx1open]
  simp only [Bool.true_eq_false, if_false, hctx1buf, if_false, hctx1id]

/-! ### C10 — the jti marker is consumed before tryJoin and never
rolled back -/

/-- C10: when a `JOIN_REQUEST`'s token verifies, its jti is fresh, but
`tryJoin` then reports the room full, the reply is
`ERROR{ERR_ROOM_FULL, retryable:true}` yet the consumed jti marker
stays in the store; re-sending the identical request (while the marker
is still live) is answered with `ERROR{ERR_TOKEN_REPLAY, retryable:true}`
instead of the original membership error. -/
theorem jti_consumed_before_join (cfg : Config) (mac : MacFn) (st : SState)
    (connId : String) (rawBytes rawBytes2 : Nat)
    (token qrToken labelOpt : Option String) (now now2 : Nat)
    (rand rand2 : Rand) (ctx : ConnCtx) (tokStr roomId : String)
    (texp : Nat) (tjti : String)
    (hconn : st.conns connId = some ctx) (hid : ctx.connId = connId)
    (hsize : ¬ cfg.maxWsMsgBytes < rawBytes)
    (ht1 : (ctx.msgBucket.take (msgBucketCfg cfg) now 1).1 = true)
    (ht2 : (ctx.bytesBucket.take (bytesBucketCfg cfg) now rawBytes).1 = true)
    (hopen : ctx.sockOpen = true)
    (hbuf : ¬ cfg.maxWsMsgBytes * 4 < ctx.buffered)
    (hroom : ctx.roomId = none)
    (heff : effectiveTokenOf token qrToken = some tokStr)
    (hver : verifyJoinToken mac cfg.joinTokenSecret tokStr
      = .okToken roomId texp tjti)
    (hexp : ¬ texp < now)
    (hmark : (st.store.markTokenJtiUsed roomId tjti
      (max 1 (texp - now + 5000)) now).1 = true)
    (htj : ((st.store.markTokenJtiUsed roomId tjti
      (max 1 (texp - now + 5000)) now).2.tryJoin roomId ctx.connId
        cfg.roomMaxParticipants).1 = .full)
    (hsize2 : ¬ cfg.maxWsMsgBytes < rawBytes2)
    (ht1b : ((ctxCharged cfg ctx now rawBytes).msgBucket.take
      (msgBucketCfg cfg) now2 1).1 = true)
    (ht2b : ((ctxCharged cfg ctx now rawBytes).bytesBucket.take
      (bytesBucketCfg cfg) now2 rawBytes2).1 = true)
    (hexp2 : ¬ texp < now2)
    (hlt : now2 < now + max 1 (texp - now + 5000)) :
    (handleRaw cfg mac st connId rawBytes
        (some (.joinRequest roomId token qrToken labelOpt)) now rand).2
      = [.send connId (.errorF "ERR_ROOM_FULL" true)]
    ∧ (handleRaw cfg mac st connId rawBytes
        (some (.joinRequest roomId token qrToken labelOpt)) now
          rand).1.store.jtiExpiry roomId tjti
      = some (now + max 1 (texp - now + 5000))
    ∧ (handleRaw cfg mac
        (handleRaw cfg mac st connId rawBytes
          (some (.joinRequest roomId token qrToken labelOpt)) now rand).1
        connId rawBytes2
        (some (.joinRequest roomId token qrToken labelOpt)) now2 rand2).2
      = [.send connId (.errorF "ERR_TOKEN_REPLAY" true)] := by
  have hrun := joinRequest_full_run cfg mac st connId rawBytes token qrToken
    labelOpt now rand ctx tokStr roomId texp tjti hconn hid hsize ht1 ht2
    hopen hbuf hroom heff hver hexp hmark htj
  have hmarker : (st.store.markTokenJtiUsed roomId tjti
      (max 1 (texp - now + 5000)) now).2.jtiExpiry roomId tjti
      = some (now + max 1 (texp - now + 5000)) := by
    unfold Store.markTokenJtiUsed at hmark ⊢
    by_cases hlive : (match st.store.jtiExpiry roomId tjti with
      | some e => decide (now < e)
      | none => false) = true
    · rw [if_pos hlive] at hmark
      simp at hmark
    · rw [if_neg hlive]
      simp
  rw [hrun]
  refine ⟨rfl, hmarker, ?_⟩
  set ctx1 := ctxCharged cfg ctx now rawBytes with hctx1
  set st2 : SState := { st.setConn ctx1 with
    store := (st.store.markTokenJtiUsed roomId tjti
      (max 1 (texp - now + 5000)) now).2 } with hst2
  have hconn2 : st2.conns connId = some ctx1 := by
    show (st.setConn ctx1).conns connId = some ctx1
    unfold SState.setConn
    have : ctx1.connId = connId := hid
    simp [this]
  have hmark2 : (st2.store.markTokenJtiUsed roomId tjti
      (max 1 (texp - now2 + 5000)) now2).1 = false := by
    set s2 := (st.store.markTokenJtiUsed roomId tjti
      (max 1 (texp - now + 5000)) now).2 with hs2
    show (s2.markTokenJtiUsed roomId tjti
      (max 1 (texp - now2 + 5000)) now2).1 = false
    unfold Store.markTokenJtiUsed
    rw [hmarker]
    simp [hlt]
    rw [if_pos (by omega)]
  have hrun2 := joinRequest_replay_run cfg mac st2 connId rawBytes2 token
    qrToken labelOpt now2 rand2 ctx1 tokStr roomId texp tjti hconn2 hid
    hsize2 ht1b ht2b hopen hbuf hroom heff hver hexp2 hmark2
  rw [hrun2]

/-! Full-room scenario: capacity 1, one member `cA`; `cB` holds a valid
fresh token for the room. -/

def fullConfig : Config := { demoConfig with roomMaxParticipants := 1 }

def fullStore : Store :=
  { rooms := fun r => if r = replayRid then some ⟨["cA"], 1⟩ else none
    jtis := fun _ => []
    jtiExpiry := fun _ _ => none }

def fullState : SState :=
  { store := fullStore
    localRooms := fun r => if r = replayRid then some ⟨["cA"], "q", 0⟩ else none
    conns := fun i => if i = "cB" then some replayCtx else none }

set_option maxRecDepth 100000 in
/-- C10 witness: `cB`'s first join attempt on the full room consumes
the jti and returns `ERR_ROOM_FULL` (retryable); replaying the identical
request returns `ERR_TOKEN_REPLAY`. -/
theorem jti_consumed_before_join_witness :
    (handleRaw fullConfig macModel fullState "cB" 100
        (some (.joinRequest replayRid (some replayTok) none none)) 50000
        replayRand).2
      = [.send "cB" (.errorF "ERR_ROOM_FULL" true)]
    ∧ (handleRaw fullConfig macModel fullState "cB" 100
        (some (.joinRequest replayRid (some replayTok) none none)) 50000
        replayRand).1.store.jtiExpiry replayRid replayJti
      = some (50000 + max 1 (99999 - 50000 + 5000))
    ∧ (handleRaw fullConfig macModel
        (handleRaw fullConfig macModel fullState "cB" 100
          (some (.joinRequest replayRid (some replayTok) none none)) 50000
          replayRand).1
        "cB" 100 (some (.joinRequest replayRid (some replayTok) none none))
        60000 replayRand).2
      = [.send "cB" (.errorF "ERR_TOKEN_REPLAY" true)] :=
  jti_consumed_before_join fullConfig macModel fullState "cB" 100 100
    (some replayTok) none none 50000 60000 replayRand replayRand replayCtx
    replayTok replayRid 99999 replayJti (by decide) (by decide) (by decide)
    (by decide) (by decide) (by decide) (by decide) (by decide) (by decide)
    (by decide) (by decide) (by decide) (by decide) (by decide) (by decide)
    (by decide) (by decide) (by decide)

/-- Adding an element to a set (`SADD`) makes it a member. -/
theorem mem_saddList (l : List String) (x : String) : x ∈ saddList l x := by
  unfold saddList
  by_cases h : x ∈ l
  · rw [if_pos h]
    exact h
  · rw [if_neg h]
    simp

/-- A deliverable member of the snapshot receives every broadcast
frame. -/
theorem broadcast_send_mem (cfg : Config) (st : SState) (rid : String)
    (f : Frame) (lr : LocalRoom) (id : String)
    (hlr : st.localRooms rid = some lr) (hm : id ∈ lr.conns)
    (hdel : deliverable cfg st id = true) :
    Output.send id f ∈ broadcastOuts cfg st rid f := by
  unfold broadcastOuts
  rw [hlr]
  dsimp only
  unfold deliverable at hdel
  revert hm
  generalize lr.conns = l
  induction l with
  | nil =>
    intro hm
    simp at hm
  | cons hd rest ih =>
    intro hm
    rw [List.mem_cons] at hm
    simp only [List.flatMap_cons, List.mem_append]
    rcases hm with hm | hm
    · subst hm
      left
      cases hc : st.conns id with
      | none =>
        rw [hc] at hdel
        simp at hdel
      | some c =>
        rw [hc] at hdel
        dsimp only at hdel
        cases hopen : c.sockOpen with
        | false =>
          rw [hopen] at hdel
          simp at hdel
        | true =>
          rw [hopen] at hdel
          simp only [Bool.true_and, decide_eq_true_eq] at hdel
          dsimp only
          rw [hopen]
          rw [if_neg (show ¬ (true = false) by simp)]
          rw [if_neg hdel]
          simp
    · right
      exact ih hm

/-! ### C9 — client-supplied label echoed in JOINED and SYSTEM_MSG -/

/-- C9: a `JOIN_REQUEST` carrying a client-supplied non-empty `label`
that passes token verification and joins successfully is answered first
with a `JOINED` frame whose `label` field is that client label, and the
subsequent `SYSTEM_MSG` broadcast announces the entry with the same
label (the joiner itself, being in the updated snapshot with an open
socket, is among its recipients). -/
theorem join_label_echo (cfg : Config) (mac : MacFn) (st : SState)
    (connId : String) (rawBytes : Nat) (token qrToken : Option String)
    (l : String) (now : Nat) (rand : Rand) (ctx : ConnCtx)
    (tokStr roomId : String) (texp : Nat) (tjti : String) (cnt : Nat)
    (lbl : String)
    (hconn : st.conns connId = some ctx) (hid : ctx.connId = connId)
    (hsize : ¬ cfg.maxWsMsgBytes < rawBytes)
    (ht1 : (ctx.msgBucket.take (msgBucketCfg cfg) now 1).1 = true)
    (ht2 : (ctx.bytesBucket.take (bytesBucketCfg cfg) now rawBytes).1 = true)
    (hopen : ctx.sockOpen = true)
    (hbuf : ¬ cfg.maxWsMsgBytes * 4 < ctx.buffered)
    (hroom : ctx.roomId = none)
    (heff : effectiveTokenOf token qrToken = some tokStr)
    (hver : verifyJoinToken mac cfg.joinTokenSecret tokStr
      = .okToken roomId texp tjti)
    (hexp : ¬ texp < now)
    (hmark : (st.store.markTokenJtiUsed roomId tjti
      (max 1 (texp - now + 5000)) now).1 = true)
    (htj : ((st.store.markTokenJtiUsed roomId tjti
      (max 1 (texp - now + 5000)) now).2.tryJoin roomId ctx.connId
        cfg.roomMaxParticipants).1 = .okJoined cnt lbl)
    (hlne : l ≠ "") :
    (handleRaw cfg mac st connId rawBytes
        (some (.joinRequest roomId token qrToken (some l))) now rand).2.head?
      = some (.send connId (.joined roomId cnt cfg.roomMaxParticipants l
          (mintJoinToken mac cfg.joinTokenSecret roomId
            (now + cfg.roomKeyTtlMs) rand.freshJtiB)
          (now + cfg.roomKeyTtlMs)))
    ∧ Output.send connId
        (.systemMsg roomId
          ("this person has entered the chat with the name " ++ l) "info")
      ∈ (handleRaw cfg mac st connId rawBytes
          (some (.joinRequest roomId token qrToken (some l))) now rand).2 := by
  rw [handleRaw_grants cfg mac st connId rawBytes _ now rand ctx hconn hsize ht1 ht2]
  have hctx1room : (ctxCharged cfg ctx now rawBytes).roomId = none := hroom
  have hctx1open : (ctxCharged cfg ctx now rawBytes).sockOpen = true := hopen
  have hctx1id : (ctxCharged cfg ctx now rawBytes).connId = connId := hid
  have hctx1buf : ¬ cfg.maxWsMsgBytes * 4 <
      (ctxCharged cfg ctx now rawBytes).buffered := hbuf
  set ctx1 := ctxCharged cfg ctx now rawBytes with hctx1
  set st1 := st.setConn ctx1 with hst1
  have hmkpair : st1.store.markTokenJtiUsed roomId tjti
      (max 1 (texp - now + 5000)) now
      = (true, (st.store.markTokenJtiUsed roomId tjti
          (max 1 (texp - now + 5000)) now).2) := by
    show st.store.markTokenJtiUsed roomId tjti (max 1 (texp - now + 5000)) now
      = _
    rcases hm : st.store.markTokenJtiUsed roomId tjti
      (max 1 (texp - now + 5000)) now with ⟨b, s2⟩
    rw [hm] at hmark
    simp at hmark
    subst hmark
    rfl
  set mk2 := (st.store.markTokenJtiUsed roomId tjti
    (max 1 (texp - now + 5000)) now).2 with hmk2
  unfold handleDispatch handleJoinRequest
  dsimp only
  rw [hctx1room]
  simp only [Option.isSome_none, Bool.false_eq_true, if_false, heff, hver]
  rw [if_neg (by simp), if_neg hexp, hmkpair]
  rw [if_neg (show ¬ ((true, mk2).1 = false) by simp)]
  rcases ht : mk2.tryJoin roomId ctx.connId cfg.roomMaxParticipants
    with ⟨j, s2⟩
  rw [ht] at htj
  dsimp only at htj
  subst htj
  have htjpair : mk2.tryJoin roomId ctx1.connId cfg.roomMaxParticipants
      = (.okJoined cnt lbl, s2) := by
    have hcid : ctx1.connId = ctx.connId := rfl
    rw [hcid]
    exact ht
  rw [htjpair]
  dsimp only
  rw [if_neg hlne]
  set el := ensureLocalRoom cfg mac { st1 with store := s2 } roomId now
    rand.freshJtiA with hel
  set localR : LocalRoom := { el.1 with
    conns := saddList el.1.conns ctx1.connId } with hlocalR
  set ctx2 : ConnCtx := { ctx1 with roomId := some roomId, label := some l }
    with hctx2
  set st4 := el.2.setLocal roomId (some localR) with hst4
  set st5 := st4.setConn ctx2 with hst5
  have hsend : wsSendOuts cfg ctx2
      (.joined roomId cnt cfg.roomMaxParticipants l
        (mintJoinToken mac cfg.joinTokenSecret roomId
          (now + cfg.roomKeyTtlMs) rand.freshJtiB)
        (now + cfg.roomKeyTtlMs))
      = [.send connId (.joined roomId cnt cfg.roomMaxParticipants l
          (mintJoinToken mac cfg.joinTokenSecret roomId
            (now + cfg.roomKeyTtlMs) rand.freshJtiB)
          (now + cfg.roomKeyTtlMs))] := by
    unfold wsSendOuts
    have h1 : ctx2.sockOpen = true := hctx1open
    have h2 : ¬ cfg.maxWsMsgBytes * 4 < ctx2.buffered := hctx1buf
    have h3 : ctx2.connId = connId := hctx1id
    rw [h1]
    rw [if_neg (show ¬ (true = false) by simp), if_neg h2, h3]
  constructor
  · rw [hsend]
    simp
  · rw [hsend]
    have hlr5 : st5.localRooms roomId = some localR := by
      rw [hst5, hst4]
      unfold SState.setConn SState.setLocal
      simp
    have hmem : ctx1.connId ∈ localR.conns := mem_saddList _ _
    have hdel : deliverable cfg st5 ctx1.connId = true := by
      unfold deliverable
      have hc5 : st5.conns ctx1.connId = some ctx2 := by
        rw [hst5]
        unfold SState.setConn
        simp [show ctx2.connId = ctx1.connId from rfl]
      rw [hc5]
      dsimp only
      rw [show ctx2.sockOpen = ctx.sockOpen from rfl, hopen]
      simp [show ctx2.buffered = ctx.buffered from rfl, hbuf]
      omega
    have hbc := broadcast_send_mem cfg st5 roomId
      (.systemMsg roomId
        ("this person has entered the chat with the name " ++ l) "info")
      localR ctx1.connId hlr5 hmem hdel
    rw [← hctx1id]
    exact List.mem_append.mpr (Or.inl (List.mem_append.mpr (Or.inr hbc)))

set_option maxRecDepth 100000 in
/-- C9 witness: `cB` joins the demonstration room with
`label := "bob"`; the `JOINED` reply and the `SYSTEM_MSG` broadcast
both carry `"bob"`. -/
theorem join_label_echo_witness :
    (handleRaw demoConfig macModel fullState "cB" 100
        (some (.joinRequest replayRid (some replayTok) none (some "bob")))
        50000 replayRand).2.head?
      = some (.send "cB"
          (.joined replayRid 2 demoConfig.roomMaxParticipants "bob"
            (mintJoinToken macModel demoConfig.joinTokenSecret replayRid
              (50000 + demoConfig.roomKeyTtlMs) replayRand.freshJtiB)
            (50000 + demoConfig.roomKeyTtlMs)))
    ∧ Output.send "cB"
        (.systemMsg replayRid
          ("this person has entered the chat with the name " ++ "bob") "info")
      ∈ (handleRaw demoConfig macModel fullState "cB" 100
          (some (.joinRequest replayRid (some replayTok) none (some "bob")))
          50000 replayRand).2 :=
  join_label_echo demoConfig macModel fullState "cB" 100 (some replayTok)
    none "bob" 50000 replayRand replayCtx replayTok replayRid 99999 replayJti
    2 "P2" (by decide) (by decide) (by decide) (by decide) (by decide)
    (by decide) (by decide) (by decide) (by decide) (by decide) (by decide)
    (by decide) (by decide) (by decide)

/-! ### C8 — the set of wire error codes -/

/-- The error codes the handlers can put on the wire (all carry the
`ERR_` prefix in the source). -/
def errCodes : List String :=
  ["ERR_ALREADY_IN_ROOM", "ERR_NOT_IN_ROOM", "ERR_NO_ROOM",
   "ERR_ROOM_FULL", "ERR_TOKEN_FORMAT", "ERR_TOKEN_MAC",
   "ERR_TOKEN_EXPIRED", "ERR_TOKEN_REPLAY", "ERR_TOKEN_ROOM_MISMATCH",
   "ERR_CIPHERTEXT_TOO_LARGE", "ERR_MEDIA_TOO_LARGE"]

/-- `wsSend` emits only the given frame to the given context. -/
theorem wsSendOuts_mem (cfg : Config) (ctx : ConnCtx) (f : Frame)
    (o : Output) (h : o ∈ wsSendOuts cfg ctx f) : o = .send ctx.connId f := by
  unfold wsSendOuts at h
  by_cases h1 : ctx.sockOpen = false
  · rw [if_pos h1] at h
    simp at h
  · rw [if_neg h1] at h
    by_cases h2 : cfg.maxWsMsgBytes * 4 < ctx.buffered
    · rw [if_pos h2] at h
      simp at h
    · rw [if_neg h2] at h
      simpa using h

/-- A broadcast emits only copies of its frame and slow-consumer
closes. -/
theorem broadcastOuts_mem (cfg : Config) (st : SState) (rid : String)
    (f : Frame) (o : Output) (h : o ∈ broadcastOuts cfg st rid f) :
    (∃ id, o = .send id f)
    ∨ ∃ id, o = .closeSock id 1008 "slow consumer" := by
  unfold broadcastOuts at h
  cases hlr : st.localRooms rid with
  | none =>
    rw [hlr] at h
    simp at h
  | some r =>
    rw [hlr] at h
    dsimp only at h
    revert h
    generalize r.conns = l
    induction l with
    | nil =>
      intro h
      simp at h
    | cons hd rest ih =>
      intro h
      rw [List.flatMap_cons, List.mem_append] at h
      rcases h with h | h
      · cases hc : st.conns hd with
        | none =>
          rw [hc] at h
          simp at h
        | some c =>
          rw [hc] at h
          dsimp only at h
          by_cases h1 : c.sockOpen = false
          · rw [if_pos h1] at h
            simp at h
          · rw [if_neg h1] at h
            by_cases h2 : cfg.maxWsMsgBytes * 4 < c.buffered
            · rw [if_pos h2] at h
              right
              exact ⟨hd, by simpa using h⟩
            · rw [if_neg h2] at h
              left
              exact ⟨hd, by simpa using h⟩
      · exact ih h

/-- `verifyJoinToken` fails only with `ERR_TOKEN_FORMAT` or
`ERR_TOKEN_MAC`. -/
theorem verify_err_code (mac : MacFn) (secret token code : String)
    (h : verifyJoinToken mac secret token = .errToken code) :
    code = "ERR_TOKEN_FORMAT" ∨ code = "ERR_TOKEN_MAC" := by
  unfold verifyJoinToken at h
  split at h
  · split at h
    · left
      injection h with h2
      exact h2.symm
    · dsimp only at h
      split at h
      · split at h
        · simp at h
        · left
          injection h with h2
          exact h2.symm
      · right
        injection h with h2
        exact h2.symm
  · left
    injection h with h2
    exact h2.symm

/-- Reading the code off an error frame delivered by `wsSend`. -/
theorem errCode_of_wsSend_err (cfg : Config) (ctx : ConnCtx)
    (d c cLit : String) (r rLit : Bool)
    (h : Output.send d (.errorF c r) ∈ wsSendOuts cfg ctx (.errorF cLit rLit)) :
    c = cLit := by
  have h2 := wsSendOuts_mem cfg ctx _ _ h
  simp only [Output.send.injEq, Frame.errorF.injEq] at h2
  exact h2.2.1

/-- A broadcast of a non-error frame contains no error sends. -/
theorem no_err_in_broadcast (cfg : Config) (st : SState) (rid : String)
    (f : Frame) (d c : String) (r : Bool)
    (hne : ∀ c2 r2, f ≠ .errorF c2 r2)
    (h : Output.send d (.errorF c r) ∈ broadcastOuts cfg st rid f) : False := by
  rcases broadcastOuts_mem cfg st rid f _ h with ⟨id, he⟩ | ⟨id, he⟩
  · injection he with h3 h4
    exact hne c r h4.symm
  · simp at he

/-- `APP_MSG` handling emits only `ERR_NOT_IN_ROOM` or
`ERR_CIPHERTEXT_TOO_LARGE` error codes. -/
theorem handleAppMsg_err (cfg : Config) (st : SState) (ctx : ConnCtx)
    (roomId ct d c : String) (r : Bool)
    (h : Output.send d (.errorF c r) ∈ (handleAppMsg cfg st ctx roomId ct).2) :
    c ∈ errCodes := by
  unfold handleAppMsg at h
  by_cases h1 : ctx.roomId ≠ some roomId
  · rw [if_pos h1] at h
    dsimp only at h
    have := errCode_of_wsSend_err cfg ctx d c _ r _ h
    subst this
    decide
  · rw [if_neg h1] at h
    by_cases h2 : cfg.maxAppCiphertextBytes < ct.utf8ByteSize
    · rw [if_pos h2] at h
      dsimp only at h
      have := errCode_of_wsSend_err cfg ctx d c _ r _ h
      subst this
      decide
    · rw [if_neg h2] at h
      dsimp only at h
      exact absurd h (fun h => no_err_in_broadcast cfg st roomId _ d c r
        (fun c2 r2 => by simp) h)

/-- `MEDIA_MSG` handling emits only `ERR_NOT_IN_ROOM` or
`ERR_MEDIA_TOO_LARGE` error codes. -/
theorem handleMediaMsg_err (cfg : Config) (st : SState) (ctx : ConnCtx)
    (roomId mime : String) (size chunkSize : Nat) (chunks : List String)
    (fromOpt : Option String) (d c : String) (r : Bool)
    (h : Output.send d (.errorF c r)
      ∈ (handleMediaMsg cfg st ctx roomId mime size chunkSize chunks
          fromOpt).2) :
    c ∈ errCodes := by
  unfold handleMediaMsg at h
  by_cases h1 : ctx.roomId ≠ some roomId
  · rw [if_pos h1] at h
    dsimp only at h
    have := errCode_of_wsSend_err cfg ctx d c _ r _ h
    subst this
    decide
  · rw [if_neg h1] at h
    by_cases h2 : 14 * 1024 * 1024 < (chunks.map String.utf8ByteSize).sum
    · rw [if_pos h2] at h
      dsimp only at h
      have := errCode_of_wsSend_err cfg ctx d c _ r _ h
      subst this
      decide
    · rw [if_neg h2] at h
      dsimp only at h
      exact absurd h (fun h => no_err_in_broadcast cfg st roomId _ d c r
        (fun c2 r2 => by simp) h)

/-- `leaveRoom` emits no error frames. -/
theorem leaveRoomH_no_err (cfg : Config) (st : SState) (ctx : ConnCtx)
    (rid d c : String) (r : Bool)
    (h : Output.send d (.errorF c r) ∈ (leaveRoomH cfg st ctx rid).2) :
    False := by
  unfold leaveRoomH at h
  by_cases h1 : ctx.roomId ≠ some rid
  · rw [if_pos h1] at h
    simp at h
  · rw [if_neg h1] at h
    dsimp only at h
    cases hl : (st.setConn { ctx with roomId := none }).localRooms rid with
    | none =>
      rw [hl] at h
      dsimp only at h
      split at h
      · simp at h
      · rw [List.mem_append] at h
        rcases h with h | h
        · cases hlab : ctx.label with
          | none =>
            rw [hlab] at h
            simp at h
          | some lbl =>
            rw [hlab] at h
            dsimp only at h
            by_cases h3 : lbl = ""
            · rw [if_pos h3] at h
              simp at h
            · rw [if_neg h3] at h
              exact no_err_in_broadcast _ _ _ _ d c r (fun c2 r2 => by simp) h
        · exact no_err_in_broadcast _ _ _ _ d c r (fun c2 r2 => by simp) h
    | some lr0 =>
      rw [hl] at h
      dsimp only at h
      split at h
      · simp at h
      · rw [List.mem_append] at h
        rcases h with h | h
        · cases hlab : ctx.label with
          | none =>
            rw [hlab] at h
            simp at h
          | some lbl =>
            rw [hlab] at h
            dsimp only at h
            by_cases h3 : lbl = ""
            · rw [if_pos h3] at h
              simp at h
            · rw [if_neg h3] at h
              exact no_err_in_broadcast _ _ _ _ d c r (fun c2 r2 => by simp) h
        · exact no_err_in_broadcast _ _ _ _ d c r (fun c2 r2 => by simp) h

/-- `ROOM_CREATE` handling emits only `ERR_ALREADY_IN_ROOM`. -/
theorem handleRoomCreate_err (cfg : Config) (mac : MacFn) (st : SState)
    (ctx : ConnCtx) (now : Nat) (rand : Rand) (d c : String) (r : Bool)
    (h : Output.send d (.errorF c r)
      ∈ (handleRoomCreate cfg mac st ctx now rand).2) :
    c ∈ errCodes := by
  unfold handleRoomCreate at h
  by_cases h1 : ctx.roomId.isSome
  · rw [if_pos h1] at h
    dsimp only at h
    have := errCode_of_wsSend_err cfg ctx d c _ r _ h
    subst this
    decide
  · rw [if_neg h1] at h
    dsimp only at h
    rw [List.mem_append] at h
    rcases h with h | h
    · have h2 := wsSendOuts_mem _ _ _ _ h
      simp at h2
    · exact absurd h (fun h => no_err_in_broadcast _ _ _ _ d c r
        (fun c2 r2 => by simp) h)

/-- `JOIN_REQUEST` handling emits only codes of the `errCodes` set. -/
theorem handleJoinRequest_err (cfg : Config) (mac : MacFn) (st : SState)
    (ctx : ConnCtx) (roomId : String) (token qrToken labelOpt : Option String)
    (now : Nat) (rand : Rand) (d c : String) (r : Bool)
    (h : Output.send d (.errorF c r)
      ∈ (handleJoinRequest cfg mac st ctx roomId token qrToken labelOpt now
          rand).2) :
    c ∈ errCodes := by
  unfold handleJoinRequest at h
  by_cases h1 : ctx.roomId.isSome
  · rw [if_pos h1] at h
    dsimp only at h
    have := errCode_of_wsSend_err cfg ctx d c _ r _ h
    subst this
    decide
  · rw [if_neg h1] at h
    cases heff : effectiveTokenOf token qrToken with
    | none =>
      rw [heff] at h
      simp at h
    | some tokStr =>
      rw [heff] at h
      dsimp only at h
      cases hv : verifyJoinToken mac cfg.joinTokenSecret tokStr with
      | errToken code2 =>
        rw [hv] at h
        dsimp only at h
        have hc := errCode_of_wsSend_err cfg ctx d c _ r _ h
        rcases verify_err_code mac cfg.joinTokenSecret tokStr code2 hv
          with h2 | h2
        · rw [hc, h2]
          decide
        · rw [hc, h2]
          decide
      | okToken trid texp tjti =>
        rw [hv] at h
        dsimp only at h
        by_cases h2 : trid ≠ roomId
        · rw [if_pos h2] at h
          dsimp only at h
          have := errCode_of_wsSend_err cfg ctx d c _ r _ h
          subst this
          decide
        · rw [if_neg h2] at h
          by_cases h3 : texp < now
          · rw [if_pos h3] at h
            dsimp only at h
            have := errCode_of_wsSend_err cfg ctx d c _ r _ h
            subst this
            decide
          · rw [if_neg h3] at h
            by_cases h4 : (st.store.markTokenJtiUsed roomId tjti
                (max 1 (texp - now + 5000)) now).1 = false
            · rw [if_pos h4] at h
              dsimp only at h
              have := errCode_of_wsSend_err cfg ctx d c _ r _ h
              subst this
              decide
            · rw [if_neg h4] at h
              cases htj : ((st.store.markTokenJtiUsed roomId tjti
                  (max 1 (texp - now + 5000)) now).2.tryJoin roomId ctx.connId
                    cfg.roomMaxParticipants).1 with
              | noRoom =>
                rw [htj] at h
                dsimp only at h
                have := errCode_of_wsSend_err cfg ctx d c _ r _ h
                subst this
                decide
              | full =>
                rw [htj] at h
                dsimp only at h
                have := errCode_of_wsSend_err cfg ctx d c _ r _ h
                subst this
                decide
              | okJoined cnt lbl =>
                rw [htj] at h
                dsimp only at h
                rw [List.mem_append] at h
                rcases h with h | h
                · rw [List.mem_append] at h
                  rcases h with h | h
                  · have h5 := wsSendOuts_mem _ _ _ _ h
                    simp at h5
                  · exact absurd h (fun h => no_err_in_broadcast _ _ _ _ d c r
                      (fun c2 r2 => by simp) h)
                · exact absurd h (fun h => no_err_in_broadcast _ _ _ _ d c r
                    (fun c2 r2 => by simp) h)

/-- C8 (amended: every wire code carries the `ERR_` prefix): every
`ERROR` frame emitted by the message handler carries one of exactly the
codes `ERR_ALREADY_IN_ROOM`, `ERR_NOT_IN_ROOM`, `ERR_NO_ROOM`,
`ERR_ROOM_FULL`, `ERR_TOKEN_FORMAT`, `ERR_TOKEN_MAC`,
`ERR_TOKEN_EXPIRED`, `ERR_TOKEN_REPLAY`, `ERR_TOKEN_ROOM_MISMATCH`,
`ERR_CIPHERTEXT_TOO_LARGE`, `ERR_MEDIA_TOO_LARGE`; and a replayed token
yields exactly `ERROR{code:"ERR_TOKEN_REPLAY", retryable:true}`. -/
theorem error_codes_wire_set (cfg : Config) (mac : MacFn) (st : SState)
    (connId : String) (rawBytes : Nat) (parsed : Option ClientMsg)
    (now : Nat) (rand : Rand) (d c : String) (r : Bool)
    (token qrToken labelOpt : Option String) (ctx : ConnCtx)
    (tokStr roomId : String) (texp : Nat) (tjti : String) :
    (Output.send d (.errorF c r)
        ∈ (handleRaw cfg mac st connId rawBytes parsed now rand).2 →
      c ∈ errCodes)
    ∧ (st.conns connId = some ctx → ctx.connId = connId →
        ¬ cfg.maxWsMsgBytes < rawBytes →
        (ctx.msgBucket.take (msgBucketCfg cfg) now 1).1 = true →
        (ctx.bytesBucket.take (bytesBucketCfg cfg) now rawBytes).1 = true →
        ctx.sockOpen = true → ¬ cfg.maxWsMsgBytes * 4 < ctx.buffered →
        ctx.roomId = none →
        effectiveTokenOf token qrToken = some tokStr →
        verifyJoinToken mac cfg.joinTokenSecret tokStr
          = .okToken roomId texp tjti →
        ¬ texp < now →
        (st.store.markTokenJtiUsed roomId tjti (max 1 (texp - now + 5000))
            now).1 = false →
        (handleRaw cfg mac st connId rawBytes
            (some (.joinRequest roomId token qrToken labelOpt)) now rand).2
          = [.send connId (.errorF "ERR_TOKEN_REPLAY" true)]) := by
  constructor
  · intro hmem
    unfold handleRaw at hmem
    cases hc : st.conns connId with
    | none =>
      rw [hc] at hmem
      simp at hmem
    | some ctx0 =>
      rw [hc] at hmem
      dsimp only at hmem
      by_cases h1 : cfg.maxWsMsgBytes < rawBytes
      · rw [if_pos h1] at hmem
        simp at hmem
      · rw [if_neg h1] at hmem
        by_cases h2 : (ctx0.msgBucket.take (msgBucketCfg cfg) now 1).1 = false
        · rw [if_pos h2] at hmem
          simp at hmem
        · rw [if_neg h2] at hmem
          by_cases h3 : (ctx0.bytesBucket.take (bytesBucketCfg cfg) now
              rawBytes).1 = false
          · rw [if_pos h3] at hmem
            simp at hmem
          · rw [if_neg h3] at hmem
            cases parsed with
            | none => simp at hmem
            | some msg =>
              dsimp only at hmem
              unfold handleDispatch at hmem
              cases msg with
              | pingMsg =>
                dsimp only at hmem
                have h4 := wsSendOuts_mem _ _ _ _ hmem
                simp at h4
              | roomCreate =>
                exact handleRoomCreate_err _ _ _ _ _ _ d c r hmem
              | joinRequest rid2 t q lb =>
                exact handleJoinRequest_err _ _ _ _ _ _ _ _ _ _ d c r hmem
              | leaveMsg rid2 =>
                dsimp only at hmem
                unfold handleLeave at hmem
                dsimp only at hmem
                rw [List.mem_append] at hmem
                rcases hmem with hmem | hmem
                · exact absurd hmem (fun hmem =>
                    leaveRoomH_no_err _ _ _ _ d c r hmem)
                · have h4 := wsSendOuts_mem _ _ _ _ hmem
                  simp at h4
              | appMsg rid2 ct =>
                exact handleAppMsg_err _ _ _ _ _ d c r hmem
              | mediaMsg rid2 mi sz csz ch fr =>
                exact handleMediaMsg_err _ _ _ _ _ _ _ _ _ d c r hmem
  · intro hconn hid hsize ht1 ht2 hopen hbuf hroom heff hver hexp hmark
    rw [joinRequest_replay_run cfg mac st connId rawBytes token qrToken
      labelOpt now rand ctx tokStr roomId texp tjti hconn hid hsize ht1 ht2
      hopen hbuf hroom heff hver hexp hmark]

set_option maxRecDepth 100000 in
/-- C8 counterexample: an `APP_MSG` for a room the sender is not in is
answered with the wire code `"ERR_NOT_IN_ROOM"`, which is not among the
codes the claim lists. -/
theorem error_code_prefix_counterexample :
    (handleRaw demoConfig macModel echoState "cA" 50
        (some (.appMsg "WRONGROOM1" "AAA")) 1000 replayRand).2
      = [.send "cA" (.errorF "ERR_NOT_IN_ROOM" false)]
    ∧ "ERR_NOT_IN_ROOM" ∉
        ["ALREADY_IN_ROOM", "NOT_IN_ROOM", "NO_ROOM", "ROOM_FULL",
         "TOKEN_FORMAT", "TOKEN_MAC", "TOKEN_EXPIRED", "TOKEN_REPLAY",
         "TOKEN_ROOM_MISMATCH", "CIPHERTEXT_TOO_LARGE", "MEDIA_TOO_LARGE"] := by
  constructor
  · decide
  · decide

set_option maxRecDepth 100000 in
/-- C8 witness: the amended theorem applied to a concrete misdirected
`APP_MSG` and to the concrete replay scenario. -/
theorem error_codes_wire_set_witness :
    "ERR_NOT_IN_ROOM" ∈ errCodes
    ∧ (handleRaw demoConfig macModel replayState "cB" 120
        (some (.joinRequest replayRid (some replayTok) none none)) 50000
        replayRand).2
      = [.send "cB" (.errorF "ERR_TOKEN_REPLAY" true)] := by
  have h := error_codes_wire_set demoConfig macModel echoState "cA" 50
    (some (.appMsg "WRONGROOM1" "AAA")) 1000 replayRand "cA"
    "ERR_NOT_IN_ROOM" false none none none echoCtxA "" "" 0 ""
  have h2 := error_codes_wire_set demoConfig macModel replayState "cB" 120
    (some (.joinRequest replayRid (some replayTok) none none)) 50000
    replayRand "cB" "x" false (some replayTok) none none replayCtx replayTok
    replayRid 99999 replayJti
  exact ⟨h.1 (by decide), h2.2 (by decide) (by decide) (by decide) (by decide)
    (by decide) (by decide) (by decide) (by decide) (by decide) (by decide)
    (by decide) (by decide)⟩

/-! ### C3 — join-token mint/verify round trip and single-bit flips -/

/-- A base64url identifier: every character is in the decoder's alphabet
(as `randomIdB64Url` guarantees for room ids and jtis). -/
def validIdStr (s : String) : Bool := s.data.all (fun c => (b64Val c).isSome)

/-- The payload byte sequence a minted token carries. -/
def tokenPayloadBytes (rid : String) (exp : Nat) (jti : String) : List Nat :=
  (payloadChars rid exp jti).map Char.toNat

/-- The base64url payload half of a minted token. -/
def tokenPayloadHalf (rid : String) (exp : Nat) (jti : String) : List Char :=
  b64EncodeBytes (tokenPayloadBytes rid exp jti)

/-- The base64url MAC half of a minted token. -/
def tokenMacHalf (mac : MacFn) (secret rid : String) (exp : Nat)
    (jti : String) : List Char :=
  b64EncodeBytes (mac secret (tokenPayloadBytes rid exp jti))

/-- Flip bit `k` of the character at index `i`. -/
def flipAt : Nat → Nat → List Char → List Char
| _, _, [] => []
| 0, k, c :: t => Char.ofNat (c.toNat ^^^ 2 ^ k) :: t
| i + 1, k, c :: t => c :: flipAt i k t

/-- Flip one bit of one character of a string (ASCII-level bit flip). -/
def flipBitStr (s : String) (i k : Nat) : String := ⟨flipAt i k s.data⟩

theorem b64Char_props : ∀ v < 64, b64Val (b64Char v) = some v ∧
    b64Char v ≠ '=' ∧ b64Char v ≠ '.' := by decide

theorem b64TakeValid_cons (v : Nat) (hv : v < 64) (cs : List Char) :
    b64TakeValid (b64Char v :: cs) = v :: b64TakeValid cs := by
  obtain ⟨h1, h2, _⟩ := b64Char_props v hv
  conv_lhs => unfold b64TakeValid
  rw [if_neg h2, h1]

theorem b64TakeValid_nil : b64TakeValid [] = [] := rfl

theorem b64EncodeBytes_valid : ∀ bytes, (∀ b ∈ bytes, b < 256) →
    ∀ c ∈ b64EncodeBytes bytes, ∃ v, v < 64 ∧ c = b64Char v
| [], _, c, hc => absurd hc (by simp [b64EncodeBytes])
| [a], h, c, hc => by
    have ha : a < 256 := h a (by simp)
    simp only [b64EncodeBytes, List.mem_cons, List.not_mem_nil, or_false] at hc
    rcases hc with rfl | rfl
    · exact ⟨a / 4, by omega, rfl⟩
    · exact ⟨a % 4 * 16, by omega, rfl⟩
| [a, b], h, c, hc => by
    have ha : a < 256 := h a (by simp)
    have hb : b < 256 := h b (by simp)
    simp only [b64EncodeBytes, List.mem_cons, List.not_mem_nil, or_false] at hc
    rcases hc with rfl | rfl | rfl
    · exact ⟨a / 4, by omega, rfl⟩
    · exact ⟨a % 4 * 16 + b / 16, by omega, rfl⟩
    · exact ⟨b % 16 * 4, by omega, rfl⟩
| a :: b :: d :: rest, h, c, hc => by
    have ha : a < 256 := h a (by simp)
    have hb : b < 256 := h b (by simp)
    have hd : d < 256 := h d (by simp)
    simp only [b64EncodeBytes, List.mem_cons] at hc
    rcases hc with rfl | rfl | rfl | rfl | hc
    · exact ⟨a / 4, by omega, rfl⟩
    · exact ⟨a % 4 * 16 + b / 16, by omega, rfl⟩
    · exact ⟨b % 16 * 4 + d / 64, by omega, rfl⟩
    · exact ⟨d % 64, by omega, rfl⟩
    · exact b64EncodeBytes_valid rest (fun x hx => h x (by simp [hx])) c hc

theorem b64EncodeBytes_no_dot (bytes : List Nat) (h : ∀ b ∈ bytes, b < 256) :
    '.' ∉ b64EncodeBytes bytes := by
  intro hc
  obtain ⟨v, hv, he⟩ := b64EncodeBytes_valid bytes h _ hc
  exact (b64Char_props v hv).2.2 he.symm

theorem b64EncodeBytes_ne_nil : ∀ bytes : List Nat, bytes ≠ [] →
    b64EncodeBytes bytes ≠ []
| [], h => absurd rfl h
| [_], _ => by simp [b64EncodeBytes]
| [_, _], _ => by simp [b64EncodeBytes]
| _ :: _ :: _ :: _, _ => by simp [b64EncodeBytes]

theorem b64_roundtrip : ∀ bytes, (∀ b ∈ bytes, b < 256) →
    b64DecodeChars (b64EncodeBytes bytes) = bytes
| [], _ => rfl
| [a], h => by
    have ha : a < 256 := h a (by simp)
    show b64DecodeVals (b64TakeValid (b64EncodeBytes [a])) = [a]
    rw [show b64EncodeBytes [a] = [b64Char (a / 4), b64Char (a % 4 * 16)] from rfl]
    rw [b64TakeValid_cons _ (by omega), b64TakeValid_cons _ (by omega),
      b64TakeValid_nil]
    show [a / 4 * 4 + a % 4 * 16 / 16] = [a]
    have : a / 4 * 4 + a % 4 * 16 / 16 = a := by omega
    rw [this]
| [a, b], h => by
    have ha : a < 256 := h a (by simp)
    have hb : b < 256 := h b (by simp)
    show b64DecodeVals (b64TakeValid (b64EncodeBytes [a, b])) = [a, b]
    rw [show b64EncodeBytes [a, b] =
      [b64Char (a / 4), b64Char (a % 4 * 16 + b / 16), b64Char (b % 16 * 4)]
      from rfl]
    rw [b64TakeValid_cons _ (by omega), b64TakeValid_cons _ (by omega),
      b64TakeValid_cons _ (by omega), b64TakeValid_nil]
    show [a / 4 * 4 + (a % 4 * 16 + b / 16) / 16,
      (a % 4 * 16 + b / 16) % 16 * 16 + b % 16 * 4 / 4] = [a, b]
    have e0 : a / 4 * 4 + (a % 4 * 16 + b / 16) / 16 = a := by omega
    have e1 : (a % 4 * 16 + b / 16) % 16 * 16 + b % 16 * 4 / 4 = b := by omega
    rw [e0, e1]
| a :: b :: d :: rest, h => by
    have ha : a < 256 := h a (by simp)
    have hb : b < 256 := h b (by simp)
    have hd : d < 256 := h d (by simp)
    have ih := b64_roundtrip rest (fun x hx => h x (by simp [hx]))
    show b64DecodeVals (b64TakeValid (b64EncodeBytes (a :: b :: d :: rest))) =
      a :: b :: d :: rest
    rw [show b64EncodeBytes (a :: b :: d :: rest) =
      b64Char (a / 4) :: b64Char (a % 4 * 16 + b / 16) ::
      b64Char (b % 16 * 4 + d / 64) :: b64Char (d % 64) :: b64EncodeBytes rest
      from rfl]
    rw [b64TakeValid_cons _ (by omega), b64TakeValid_cons _ (by omega),
      b64TakeValid_cons _ (by omega), b64TakeValid_cons _ (by omega)]
    show (a / 4 * 4 + (a % 4 * 16 + b / 16) / 16) ::
      ((a % 4 * 16 + b / 16) % 16 * 16 + (b % 16 * 4 + d / 64) / 4) ::
      ((b % 16 * 4 + d / 64) % 4 * 64 + d % 64) ::
      b64DecodeVals (b64TakeValid (b64EncodeBytes rest)) = a :: b :: d :: rest
    have e0 : a / 4 * 4 + (a % 4 * 16 + b / 16) / 16 = a := by omega
    have e1 : (a % 4 * 16 + b / 16) % 16 * 16 + (b % 16 * 4 + d / 64) / 4 = b := by
      omega
    have e2 : (b % 16 * 4 + d / 64) % 4 * 64 + d % 64 = d := by omega
    rw [e0, e1, e2]
    exact congrArg (fun t => a :: b :: d :: t) ih

theorem splitOnDot_no_dot : ∀ cs : List Char, '.' ∉ cs → splitOnDot cs = [cs]
| [], _ => rfl
| c :: rest, h => by
    have hc : c ≠ '.' := fun he => h (he ▸ List.mem_cons_self c rest)
    have ih := splitOnDot_no_dot rest (fun hm => h (List.mem_cons_of_mem c hm))
    conv_lhs => unfold splitOnDot
    rw [if_neg hc, ih]

theorem splitOnDot_append : ∀ p m : List Char, '.' ∉ p →
    splitOnDot (p ++ '.' :: m) = p :: splitOnDot m
| [], m, _ => by
    rw [List.nil_append]
    conv_lhs => unfold splitOnDot
    rw [if_pos rfl]
| c :: p', m, h => by
    have hc : c ≠ '.' := fun he => h (he ▸ List.mem_cons_self c p')
    have ih := splitOnDot_append p' m (fun hm => h (List.mem_cons_of_mem c hm))
    rw [List.cons_append]
    conv_lhs => unfold splitOnDot
    rw [if_neg hc, ih]

theorem digitCh_toNat : ∀ d < 10, (digitCh d).toNat = 48 + d := by decide

theorem isDigitCh_digitCh : ∀ d < 10, isDigitCh (digitCh d) = true := by decide

theorem b64Val_isSome_facts (c : Char) (h : (b64Val c).isSome = true) :
    c ≠ '\x22' ∧ c.toNat < 256 := by
  simp only [b64Val] at h
  by_cases h1 : 65 ≤ c.toNat ∧ c.toNat ≤ 90
  · exact ⟨fun he => absurd (he ▸ h1) (by decide), by omega⟩
  · rw [if_neg h1] at h
    by_cases h2 : 97 ≤ c.toNat ∧ c.toNat ≤ 122
    · exact ⟨fun he => absurd (he ▸ h2) (by decide), by omega⟩
    · rw [if_neg h2] at h
      by_cases h3 : 48 ≤ c.toNat ∧ c.toNat ≤ 57
      · exact ⟨fun he => absurd (he ▸ h3) (by decide), by omega⟩
      · rw [if_neg h3] at h
        by_cases h4 : c.toNat = 45 ∨ c.toNat = 43
        · refine ⟨fun he => absurd (he ▸ h4) (by decide), ?_⟩
          rcases h4 with h4 | h4 <;> omega
        · rw [if_neg h4] at h
          by_cases h5 : c.toNat = 95 ∨ c.toNat = 47
          · refine ⟨fun he => absurd (he ▸ h5) (by decide), ?_⟩
            rcases h5 with h5 | h5 <;> omega
          · rw [if_neg h5] at h
            exact absurd h (by decide)

theorem map_toNat_ofNat : ∀ l : List Char, (l.map Char.toNat).map Char.ofNat = l
| [] => rfl
| c :: t => by
    simp only [List.map_cons, Char.ofNat_toNat, map_toNat_ofNat t]

theorem natDigitsAux_acc : ∀ fuel n acc, n < fuel →
    natDigitsAux fuel n acc = natDigitsAux fuel n [] ++ acc := by
  intro fuel
  induction fuel with
  | zero => intro n acc h; omega
  | succ f ih =>
    intro n acc h
    by_cases h10 : n < 10
    · conv_lhs => unfold natDigitsAux
      conv_rhs => unfold natDigitsAux
      rw [if_pos h10, if_pos h10]
      rfl
    · conv_lhs => unfold natDigitsAux
      conv_rhs => unfold natDigitsAux
      rw [if_neg h10, if_neg h10]
      have hf : n / 10 < f := by omega
      rw [ih (n / 10) _ hf, ih (n / 10) [digitCh (n % 10)] hf,
        List.append_assoc]
      rfl

theorem natDigitsAux_fuel : ∀ f1 f2 n acc, n < f1 → n < f2 →
    natDigitsAux f1 n acc = natDigitsAux f2 n acc := by
  intro f1
  induction f1 with
  | zero => intro f2 n acc h1 _; omega
  | succ f ih =>
    intro f2 n acc h1 h2
    cases f2 with
    | zero => omega
    | succ g =>
      conv_lhs => unfold natDigitsAux
      conv_rhs => unfold natDigitsAux
      by_cases h10 : n < 10
      · rw [if_pos h10, if_pos h10]
      · rw [if_neg h10, if_neg h10]
        exact ih g (n / 10) _ (by omega) (by omega)

theorem natDigits_lt10 (n : Nat) (h : n < 10) : natDigits n = [digitCh n] := by
  show natDigitsAux (n + 1) n [] = _
  conv_lhs => unfold natDigitsAux
  rw [if_pos h]

theorem natDigits_ge10 (n : Nat) (h : 10 ≤ n) :
    natDigits n = natDigits (n / 10) ++ [digitCh (n % 10)] := by
  show natDigitsAux (n + 1) n [] = _
  conv_lhs => unfold natDigitsAux
  rw [if_neg (by omega : ¬ n < 10)]
  rw [natDigitsAux_acc n (n / 10) _ (by omega)]
  rw [natDigitsAux_fuel n (n / 10 + 1) (n / 10) [] (by omega) (by omega)]
  rfl

theorem natDigits_digits (n : Nat) :
    ∀ c ∈ natDigits n, ∃ d, d < 10 ∧ c = digitCh d := by
  induction n using Nat.strong_induction_on with
  | _ n ih =>
    by_cases h : n < 10
    · rw [natDigits_lt10 n h]
      intro c hc
      simp only [List.mem_singleton] at hc
      exact ⟨n, h, hc⟩
    · rw [natDigits_ge10 n (by omega)]
      intro c hc
      rcases List.mem_append.mp hc with hc | hc
      · exact ih (n / 10) (by omega) c hc
      · simp only [List.mem_singleton] at hc
        exact ⟨n % 10, by omega, hc⟩

theorem natDigits_ne_nil (n : Nat) : natDigits n ≠ [] := by
  by_cases h : n < 10
  · rw [natDigits_lt10 n h]; simp
  · rw [natDigits_ge10 n (by omega)]; simp

theorem digitsVal_from (n : Nat) : ∀ a0 : Nat,
    List.foldl (fun a c => a * 10 + (c.toNat - 48)) a0 (natDigits n) =
      a0 * 10 ^ (natDigits n).length + n := by
  induction n using Nat.strong_induction_on with
  | _ n ih =>
    intro a0
    by_cases h : n < 10
    · rw [natDigits_lt10 n h]
      simp only [List.foldl_cons, List.foldl_nil, List.length_singleton,
        pow_one]
      rw [digitCh_toNat n h]
      omega
    · rw [natDigits_ge10 n (by omega), List.foldl_append]
      rw [ih (n / 10) (by omega) a0]
      simp only [List.foldl_cons, List.foldl_nil, List.length_append,
        List.length_singleton]
      rw [digitCh_toNat (n % 10) (by omega), pow_succ, ← mul_assoc]
      set Y := a0 * 10 ^ (natDigits (n / 10)).length
      omega

theorem digitsVal_natDigits (n : Nat) : digitsVal (natDigits n) = n := by
  show List.foldl (fun a c => a * 10 + (c.toNat - 48)) 0 (natDigits n) = n
  rw [digitsVal_from n 0]
  simp

theorem takeWhile_middle (p : Char → Bool) (c : Char) (hc : p c = false) :
    ∀ l r : List Char, (∀ x ∈ l, p x = true) →
      (l ++ c :: r).takeWhile p = l ∧ (l ++ c :: r).dropWhile p = c :: r
| [], r, _ => by
    constructor
    · rw [List.nil_append, List.takeWhile_cons, hc]; rfl
    · rw [List.nil_append, List.dropWhile_cons, hc]; rfl
| x :: xs, r, h => by
    have hx : p x = true := h x (List.mem_cons_self x xs)
    obtain ⟨h1, h2⟩ :=
      takeWhile_middle p c hc xs r (fun y hy => h y (List.mem_cons_of_mem x hy))
    constructor
    · rw [List.cons_append, List.takeWhile_cons, hx]
      simp only [if_true, h1]
    · rw [List.cons_append, List.dropWhile_cons, hx]
      simp only [if_true, h2]

theorem stripLit_prefix : ∀ l cs : List Char, stripLit l (l ++ cs) = some cs
| [], cs => rfl
| x :: xs, cs => by
    rw [List.cons_append]
    conv_lhs => unfold stripLit
    rw [if_pos rfl]
    exact stripLit_prefix xs cs

theorem parseQuoted_eq (s rest : List Char) (hs : ∀ c ∈ s, c ≠ '\x22') :
    parseQuoted (s ++ '\x22' :: rest) = some (s, rest) := by
  have hl : ∀ x ∈ s, (x != '\x22') = true := by
    intro x hx
    simpa [bne_iff_ne] using hs x hx
  obtain ⟨h1, h2⟩ :=
    takeWhile_middle (fun c => c != '\x22') '\x22' (by decide) s rest hl
  unfold parseQuoted
  rw [h1, h2]
  rfl

theorem parseNum_eq (n : Nat) (c : Char) (r : List Char)
    (hc : isDigitCh c = false) :
    parseNum (natDigits n ++ c :: r) = some (n, c :: r) := by
  have hl : ∀ x ∈ natDigits n, isDigitCh x = true := by
    intro x hx
    obtain ⟨d, hd, rfl⟩ := natDigits_digits n x hx
    exact isDigitCh_digitCh d hd
  obtain ⟨h1, h2⟩ := takeWhile_middle isDigitCh c hc (natDigits n) r hl
  unfold parseNum
  rw [h1, h2]
  cases hnd : natDigits n with
  | nil => exact absurd hnd (natDigits_ne_nil n)
  | cons d ds =>
    show some (digitsVal (d :: ds), c :: r) = some (n, c :: r)
    rw [← hnd, digitsVal_natDigits]

theorem fold131_lt : ∀ (l : List Nat) (a : Nat), a < 65521 →
    l.foldl (fun a b => (a * 131 + b) % 65521) a < 65521
| [], _, h => h
| b :: t, a, _ => by
    show List.foldl _ ((a * 131 + b) % 65521) t < 65521
    exact fold131_lt t _ (Nat.mod_lt _ (by omega))

theorem fold251_le : ∀ (l : List Nat) (a : Nat), a ≤ 65521 →
    l.foldl (fun a b => (a * 251 + b + 1) % 65519) a ≤ 65521
| [], _, h => h
| b :: t, a, _ => by
    show List.foldl _ ((a * 251 + b + 1) % 65519) t ≤ 65521
    refine fold251_le t _ ?_
    have := Nat.mod_lt (a * 251 + b + 1) (show 0 < 65519 by omega)
    omega

theorem macModel_ok (secret : String) (d : List Nat) :
    macModel secret d ≠ [] ∧ ∀ b ∈ macModel secret d, b < 256 := by
  have hseed : (secret.data.map Char.toNat).foldl
      (fun a b => (a * 131 + b) % 65521) 7 < 65521 :=
    fold131_lt _ 7 (by omega)
  constructor
  · intro h
    have := congrArg List.length h
    simp [macModel] at this
  · intro b hb
    simp only [macModel, List.mem_map, List.mem_range] at hb
    obtain ⟨i, hi, rfl⟩ := hb
    have h1 : d.foldl (fun a b => (a * 131 + b) % 65521)
        ((secret.data.map Char.toNat).foldl
          (fun a b => (a * 131 + b) % 65521) 7) < 65521 :=
      fold131_lt _ _ hseed
    have h2 : d.foldl (fun a b => (a * 251 + b + 1) % 65519)
        ((secret.data.map Char.toNat).foldl
          (fun a b => (a * 131 + b) % 65521) 7 + 1) ≤ 65521 :=
      fold251_le _ _ (by omega)
    by_cases h0 : i = 0
    · subst h0
      rw [if_pos rfl]
      omega
    · rw [if_neg h0]
      by_cases hi1 : i = 1
      · subst hi1
        rw [if_pos rfl]
        omega
      · rw [if_neg hi1]
        by_cases hi2 : i = 2
        · subst hi2
          rw [if_pos rfl]
          omega
        · rw [if_neg hi2]
          by_cases hi3 : i = 3
          · subst hi3
            rw [if_pos rfl]
            omega
          · rw [if_neg hi3]
            exact Nat.mod_lt _ (by omega)

theorem stripLit_cons (c : Char) (l cs : List Char) :
    stripLit (c :: l) (c :: cs) = stripLit l cs := by
  conv_lhs => unfold stripLit
  rw [if_pos rfl]

theorem stripLit_nil (cs : List Char) : stripLit [] cs = some cs := rfl

theorem parsePayload_canonical (rid jti : String) (exp : Nat)
    (hr : validIdStr rid = true) (hj : validIdStr jti = true) :
    parsePayload (payloadChars rid exp jti) = some (rid, exp, jti) := by
  obtain ⟨rl⟩ := rid
  obtain ⟨jl⟩ := jti
  have hr' : ∀ c ∈ rl, (b64Val c).isSome = true := by
    unfold validIdStr at hr
    exact fun c hc => List.all_eq_true.mp hr c hc
  have hj' : ∀ c ∈ jl, (b64Val c).isSome = true := by
    unfold validIdStr at hj
    exact fun c hc => List.all_eq_true.mp hj c hc
  have hrq : ∀ c ∈ rl, c ≠ '"' :=
    fun c hc => (b64Val_isSome_facts c (hr' c hc)).1
  have hjq : ∀ c ∈ jl, c ≠ '"' :=
    fun c hc => (b64Val_isSome_facts c (hj' c hc)).1
  unfold parsePayload payloadChars
  simp only [List.append_assoc, List.cons_append, List.nil_append]
  simp only [stripLit_cons, stripLit_nil, Option.bind_eq_bind',
    Option.some_bind]
  rw [parseQuoted_eq rl _ hrq]
  simp only [stripLit_cons, stripLit_nil, Option.bind_eq_bind',
    Option.some_bind]
  rw [parseNum_eq exp ',' _ (by decide)]
  simp only [stripLit_cons, stripLit_nil, Option.bind_eq_bind',
    Option.some_bind]
  rw [parseQuoted_eq jl _ hjq]
  simp only [Option.bind_eq_bind', Option.some_bind]

theorem payloadChars_lt (rid jti : String) (exp : Nat)
    (hr : validIdStr rid = true) (hj : validIdStr jti = true) :
    ∀ c ∈ payloadChars rid exp jti, c.toNat < 256 := by
  have hr' : ∀ c ∈ rid.data, (b64Val c).isSome = true := by
    unfold validIdStr at hr
    exact fun c hc => List.all_eq_true.mp hr c hc
  have hj' : ∀ c ∈ jti.data, (b64Val c).isSome = true := by
    unfold validIdStr at hj
    exact fun c hc => List.all_eq_true.mp hj c hc
  intro c hc
  unfold payloadChars at hc
  rcases List.mem_append.mp hc with hc | hc
  swap
  · exact (show ∀ x ∈ ("\x22\x7d".data : List Char), x.toNat < 256
      from by decide) c hc
  rcases List.mem_append.mp hc with hc | hc
  swap
  · exact (b64Val_isSome_facts c (hj' c hc)).2
  rcases List.mem_append.mp hc with hc | hc
  swap
  · exact (show ∀ x ∈ ((",\x22jti\x22:\x22").data : List Char), x.toNat < 256
      from by decide) c hc
  rcases List.mem_append.mp hc with hc | hc
  swap
  · obtain ⟨d, hd, rfl⟩ := natDigits_digits exp c hc
    rw [digitCh_toNat d hd]
    omega
  rcases List.mem_append.mp hc with hc | hc
  swap
  · exact (show ∀ x ∈ (("\x22,\x22exp\x22:").data : List Char), x.toNat < 256
      from by decide) c hc
  rcases List.mem_append.mp hc with hc | hc
  swap
  · exact (b64Val_isSome_facts c (hr' c hc)).2
  · exact (show ∀ x ∈ (("\x7b\x22v\x22:1,\x22rid\x22:\x22").data : List Char),
      x.toNat < 256 from by decide) c hc

theorem tokenPayloadBytes_lt (rid jti : String) (exp : Nat)
    (hr : validIdStr rid = true) (hj : validIdStr jti = true) :
    ∀ b ∈ tokenPayloadBytes rid exp jti, b < 256 := by
  intro b hb
  unfold tokenPayloadBytes at hb
  obtain ⟨c, hc, rfl⟩ := List.mem_map.mp hb
  exact payloadChars_lt rid jti exp hr hj c hc

theorem tokenPayloadBytes_ne_nil (rid : String) (exp : Nat) (jti : String) :
    tokenPayloadBytes rid exp jti ≠ [] := by
  unfold tokenPayloadBytes payloadChars
  simp

theorem verify_two_halves (mac : MacFn) (secret : String) (p2 m2 : List Char)
    (hp : p2 ≠ []) (hm : m2 ≠ []) (hpd : '.' ∉ p2) (hmd : '.' ∉ m2) :
    verifyJoinToken mac secret ⟨p2 ++ '.' :: m2⟩ =
      (if b64DecodeChars m2 =
          b64DecodeChars (b64EncodeBytes (mac secret (b64DecodeChars p2))) then
        match parsePayload ((b64DecodeChars p2).map Char.ofNat) with
        | some (rid, exp, jti) => VerifyRes.okToken rid exp jti
        | none => VerifyRes.errToken "ERR_TOKEN_FORMAT"
      else VerifyRes.errToken "ERR_TOKEN_MAC") := by
  have hpe : p2.isEmpty = false := by
    cases p2 with
    | nil => exact absurd rfl hp
    | cons c t => rfl
  have hme : m2.isEmpty = false := by
    cases m2 with
    | nil => exact absurd rfl hm
    | cons c t => rfl
  unfold verifyJoinToken
  rw [show (String.data ⟨p2 ++ '.' :: m2⟩) = p2 ++ '.' :: m2 from rfl]
  rw [splitOnDot_append p2 m2 hpd, splitOnDot_no_dot m2 hmd]
  dsimp only
  rw [hpe, hme]
  rfl

theorem verify_bad_split (mac : MacFn) (secret : String) (t : List Char)
    (h : (splitOnDot t).length ≠ 2) :
    verifyJoinToken mac secret ⟨t⟩ = VerifyRes.errToken "ERR_TOKEN_FORMAT" := by
  unfold verifyJoinToken
  rw [show (String.data ⟨t⟩) = t from rfl]
  cases hs : splitOnDot t with
  | nil => rfl
  | cons p tl =>
    cases tl with
    | nil => rfl
    | cons m tl2 =>
      cases tl2 with
      | nil => exact absurd (by rw [hs]; rfl) h
      | cons x tl3 => rfl

/-- C3: for every MAC function whose digests are non-empty byte lists
(as HMAC-SHA256's are), every secret, expiry, and base64url `rid` and
`jti`, minting a join token and verifying it with the same secret
succeeds and returns the original `\x7brid, exp, jti\x7d`.  A tampered
token whose payload half still decodes to the original bytes verifies
successfully (so a bit flip confined to the spare trailing bits of a
half's final base64 character is NOT rejected); a tampered payload half
whose decoded bytes change the MAC fails with `ERR_TOKEN_MAC`; a
tampered MAC half whose decoded bytes change fails with
`ERR_TOKEN_MAC`; and any corruption that destroys the two-part dot
structure fails with `ERR_TOKEN_FORMAT`. -/
theorem joinToken_roundtrip_and_tamper
    (mac : MacFn) (secret rid jti : String) (exp : Nat)
    (hmac : ∀ d : List Nat, mac secret d ≠ [] ∧ ∀ b ∈ mac secret d, b < 256)
    (hr : validIdStr rid = true) (hj : validIdStr jti = true) :
    verifyJoinToken mac secret (mintJoinToken mac secret rid exp jti) =
      VerifyRes.okToken rid exp jti ∧
    (∀ p2 : List Char, p2 ≠ [] → '.' ∉ p2 →
      b64DecodeChars p2 = tokenPayloadBytes rid exp jti →
      verifyJoinToken mac secret
        ⟨p2 ++ '.' :: tokenMacHalf mac secret rid exp jti⟩ =
        VerifyRes.okToken rid exp jti) ∧
    (∀ p2 : List Char, p2 ≠ [] → '.' ∉ p2 →
      mac secret (b64DecodeChars p2) ≠
        mac secret (tokenPayloadBytes rid exp jti) →
      verifyJoinToken mac secret
        ⟨p2 ++ '.' :: tokenMacHalf mac secret rid exp jti⟩ =
        VerifyRes.errToken "ERR_TOKEN_MAC") ∧
    (∀ m2 : List Char, m2 ≠ [] → '.' ∉ m2 →
      b64DecodeChars m2 ≠ mac secret (tokenPayloadBytes rid exp jti) →
      verifyJoinToken mac secret
        ⟨tokenPayloadHalf rid exp jti ++ '.' :: m2⟩ =
        VerifyRes.errToken "ERR_TOKEN_MAC") ∧
    (∀ t : List Char, (splitOnDot t).length ≠ 2 →
      verifyJoinToken mac secret ⟨t⟩ =
        VerifyRes.errToken "ERR_TOKEN_FORMAT") := by
  have hpB := tokenPayloadBytes_lt rid jti exp hr hj
  have hpBne := tokenPayloadBytes_ne_nil rid exp jti
  have hMne : tokenMacHalf mac secret rid exp jti ≠ [] :=
    b64EncodeBytes_ne_nil _ (hmac _).1
  have hMnd : '.' ∉ tokenMacHalf mac secret rid exp jti :=
    b64EncodeBytes_no_dot _ (hmac _).2
  have hPne : tokenPayloadHalf rid exp jti ≠ [] :=
    b64EncodeBytes_ne_nil _ hpBne
  have hPnd : '.' ∉ tokenPayloadHalf rid exp jti :=
    b64EncodeBytes_no_dot _ hpB
  have hdecP : b64DecodeChars (tokenPayloadHalf rid exp jti) =
      tokenPayloadBytes rid exp jti := b64_roundtrip _ hpB
  have hdecM : b64DecodeChars (tokenMacHalf mac secret rid exp jti) =
      mac secret (tokenPayloadBytes rid exp jti) :=
    b64_roundtrip _ (hmac _).2
  have hmap : (tokenPayloadBytes rid exp jti).map Char.ofNat =
      payloadChars rid exp jti := map_toNat_ofNat _
  have hparse : parsePayload ((tokenPayloadBytes rid exp jti).map Char.ofNat) =
      some (rid, exp, jti) := by
    rw [hmap]
    exact parsePayload_canonical rid jti exp hr hj
  have hOk : ∀ p2 : List Char, p2 ≠ [] → '.' ∉ p2 →
      b64DecodeChars p2 = tokenPayloadBytes rid exp jti →
      verifyJoinToken mac secret
        ⟨p2 ++ '.' :: tokenMacHalf mac secret rid exp jti⟩ =
        VerifyRes.okToken rid exp jti := by
    intro p2 hne hnd hdec
    rw [verify_two_halves mac secret p2 _ hne hMne hnd hMnd]
    rw [hdec, hdecM,
      b64_roundtrip (mac secret (tokenPayloadBytes rid exp jti)) (hmac _).2]
    rw [if_pos rfl, hparse]
  refine ⟨?_, hOk, ?_, ?_, ?_⟩
  · rw [show mintJoinToken mac secret rid exp jti =
      ⟨tokenPayloadHalf rid exp jti ++
        '.' :: tokenMacHalf mac secret rid exp jti⟩ from rfl]
    exact hOk _ hPne hPnd hdecP
  · intro p2 hne hnd hneq
    rw [verify_two_halves mac secret p2 _ hne hMne hnd hMnd]
    rw [hdecM,
      b64_roundtrip (mac secret (b64DecodeChars p2)) (hmac _).2]
    rw [if_neg (fun h => hneq h.symm)]
  · intro m2 hne hnd hneq
    rw [verify_two_halves mac secret _ m2 hPne hne hPnd hnd]
    rw [hdecP,
      b64_roundtrip (mac secret (tokenPayloadBytes rid exp jti)) (hmac _).2]
    rw [if_neg hneq]
  · intro t ht
    exact verify_bad_split mac secret t ht

def tokC3 : String :=
  mintJoinToken macModel "0123456789abcdef0123456789abcdef"
    "RIDRIDRIDRIDRIDRIDRIDR" 1712345678901 "JTIJTIJTIJTIJTIJTIJTIJ"

set_option maxRecDepth 100000 in
set_option maxHeartbeats 1000000 in
/-- C3 counterexample: in the minted token `tokC3` the payload half is
119 characters (indices 0-118); its final character carries only 2
payload bits, so flipping bit 0 of character 118 yields a different
token string that still verifies successfully and returns the original
payload, refuting "for any single bit flip ... verification fails".
(A flip that does alter decoded bytes, e.g. bit 0 of character 0, fails
with code `ERR_TOKEN_MAC` \u2014 the wire code carries the `ERR_` prefix,
not the bare `TOKEN_MAC` of the claim.) -/
theorem joinToken_bitflip_counterexample :
    flipBitStr tokC3 118 0 ≠ tokC3 ∧
    verifyJoinToken macModel "0123456789abcdef0123456789abcdef"
      (flipBitStr tokC3 118 0) =
      VerifyRes.okToken "RIDRIDRIDRIDRIDRIDRIDR" 1712345678901
        "JTIJTIJTIJTIJTIJTIJTIJ" ∧
    verifyJoinToken macModel "0123456789abcdef0123456789abcdef"
      (flipBitStr tokC3 0 0) =
      VerifyRes.errToken "ERR_TOKEN_MAC" := by
  refine ⟨by decide, by decide, by decide⟩

set_option maxRecDepth 100000 in
set_option maxHeartbeats 1000000 in
/-- C3 witness: the round-trip clause of `joinToken_roundtrip_and_tamper`
instantiated at the concrete stand-in MAC, secret, rid, exp and jti. -/
theorem joinToken_roundtrip_and_tamper_witness :
    verifyJoinToken macModel "0123456789abcdef0123456789abcdef"
      (mintJoinToken macModel "0123456789abcdef0123456789abcdef"
        "RIDRIDRIDRIDRIDRIDRIDR" 1712345678901 "JTIJTIJTIJTIJTIJTIJTIJ") =
      VerifyRes.okToken "RIDRIDRIDRIDRIDRIDRIDR" 1712345678901
        "JTIJTIJTIJTIJTIJTIJTIJ" :=
  (joinToken_roundtrip_and_tamper macModel "0123456789abcdef0123456789abcdef"
    "RIDRIDRIDRIDRIDRIDRIDR" "JTIJTIJTIJTIJTIJTIJTIJ" 1712345678901
    (fun d => macModel_ok "0123456789abcdef0123456789abcdef" d)
    (by decide) (by decide)).1

end AnnonChat
